import Mathlib

/-!
The entity query / filter / render pipeline of esctl.

A shallow embedding of `cmd/get.go`, `constants/entities.go` and
`output/table.go`, followed by theorems about the shard filter, the row
projections and the table renderer.

Conventions of the embedding

* Package-level flag variables (`flagNode`, `flagShard`, ...) are the fields of
  the record `Flags`, passed explicitly.
* `os.Exit(1)` after a diagnostic is `Except.error` carrying the diagnostic.
* A Go run-time panic (index out of range) is `none` in `Option`.
* Go `int` is taken to be 64 bits wide.
* Go strings are Lean strings; `<` on strings is lexicographic in both.
* `strings.ToLower` is a parameter `toLower` of the renderer: nothing proved
  below depends on what it computes.
-/

set_option linter.dupNamespace false

namespace Esctl

/-! ## constants/entities.go -/

def EntityNode : String := "node"
def EntityNodes : String := "nodes"
def EntityIndex : String := "index"
def EntityIndices : String := "indices"
def EntityShard : String := "shard"
def EntityShards : String := "shards"
def EntityAlias : String := "alias"
def EntityAliases : String := "aliases"
def EntityTask : String := "task"
def EntityTasks : String := "tasks"
def EntityCluster : String := "cluster"

def ShardStateStarted : String := "STARTED"
def ShardStateRelocating : String := "RELOCATING"
def ShardStateInitializing : String := "INITIALIZING"
def ShardStateUnassigned : String := "UNASSIGNED"

def ShardPrimary : String := "p"
def ShardReplica : String := "r"

/-! ## Records of package `es`

The declarations of `es.Node`, `es.Index` and `es.Shard` are not part of the
sources at hand; the fields below are the ones `cmd/get.go` reads, each used
there as a `string`. -/

/-- Modelled from the spec: the record type `es.Shard`, whose declaration is
absent; one string field per field that `handleShardLogic` and the
`includeShardBy...` predicates read. -/
structure Shard where
  Index : String
  Shard : String
  PriRep : String
  State : String
  Docs : String
  Store : String
  IP : String
  Node : String
  ID : String
  UnassignedReason : String
  UnassignedAt : String
  SegmentsCount : String
  deriving DecidableEq, Repr

/-- Modelled from the spec: the record type `es.Node`, whose declaration is
absent; one string field per field that `handleNodeLogic` reads. -/
structure Node where
  Name : String
  IP : String
  NodeRole : String
  Master : String
  HeapMax : String
  HeapCurrent : String
  HeapPercent : String
  CPU : String
  Load1m : String
  DiskTotal : String
  DiskUsed : String
  DiskAvail : String
  deriving DecidableEq, Repr

/-- Modelled from the spec: the record type `es.Index`, whose declaration is
absent; one string field per field that `handleIndexLogic` reads. -/
structure Index where
  Index : String
  UUID : String
  Health : String
  Status : String
  Pri : String
  Rep : String
  DocsCount : String
  DocsDeleted : String
  CreationDate : String
  StoreSize : String
  PriStoreSize : String
  deriving DecidableEq, Repr

/-- The fields of `es.Task` (es/tasks.go) that `handleTaskLogic` reads; `ID` is
an `int64`. -/
structure Task where
  Node : String
  ID : Int
  Action : String
  deriving DecidableEq, Repr

/-- The struct `es.TaskNode` (es/tasks.go), cut down to the field that
`handleTaskLogic` reads: the values of the map `Tasks`, in the order in which
the `range` loop visits them. -/
structure TaskNode where
  Tasks : List Task
  deriving DecidableEq, Repr

/-- The struct `es.TasksResponse` (es/tasks.go): the values of the map
`Nodes`, in the order in which the `range` loop visits them. -/
structure TasksResponse where
  Nodes : List TaskNode
  deriving DecidableEq, Repr

/-! ## strings.ToLower on ASCII text -/

/-- Lower-casing of the ASCII letters, the value of `strings.ToLower` on ASCII
text; used where a concrete input is evaluated. -/
def asciiToLower (s : String) : String :=
  String.mk (s.data.map Char.toLower)

/-! ## cmd/get.go: flags -/

/-- The package-level flag variables of `cmd/get.go`. -/
structure Flags where
  flagIndex : String
  flagNode : String
  flagShard : Int
  flagPrimary : Bool
  flagReplica : Bool
  flagStarted : Bool
  flagRelocating : Bool
  flagInitializing : Bool
  flagUnassigned : Bool
  flagActions : List String
  flagSortBy : List String
  deriving DecidableEq, Repr

/-- The flag values that `init` registers as defaults. -/
def defaultFlags : Flags :=
  { flagIndex := "", flagNode := "", flagShard := -1,
    flagPrimary := false, flagReplica := false,
    flagStarted := false, flagRelocating := false,
    flagInitializing := false, flagUnassigned := false,
    flagActions := [], flagSortBy := [] }

/-! ## strconv.Atoi -/

/-- The digits loop of `strconv.Atoi`: `n = n*10 + int(ch - '0')`. -/
def atoiDigits (ds : List Char) : Nat :=
  ds.foldl (fun n ch => n * 10 + (ch.toNat - 48)) 0

/-- Go's `strconv.Atoi` on a 64-bit platform: an optional sign, then one or
more decimal digits and nothing else, the value within the `int` range;
`none` stands for a non-nil error. -/
def Atoi (s : String) : Option Int :=
  let neg : Bool := match s.data with
    | '-' :: _ => true
    | _ => false
  let ds : List Char := match s.data with
    | '-' :: r => r
    | '+' :: r => r
    | r => r
  if ds.isEmpty then none
  else if ds.all Char.isDigit then
    let v : Int := if neg then -(atoiDigits ds : Int) else (atoiDigits ds : Int)
    if -(2 : Int) ^ 63 ≤ v ∧ v < (2 : Int) ^ 63 then some v else none
  else none

/-! ## cmd/get.go: the shard predicates -/

def includeShardByState (f : Flags) (shard : Shard) : Bool :=
  if f.flagStarted && shard.State == ShardStateStarted then true
  else if f.flagRelocating && shard.State == ShardStateRelocating then true
  else if f.flagInitializing && shard.State == ShardStateInitializing then true
  else if f.flagUnassigned && shard.State == ShardStateUnassigned then true
  else if !f.flagStarted && !f.flagRelocating && !f.flagInitializing && !f.flagUnassigned then true
  else false

/-- The diagnostic printed before `os.Exit(1)` in `includeShardByNumber`. -/
def parseShardError : String := "Failed to parse shard number"

def includeShardByNumber (f : Flags) (shard : Shard) : Except String Bool :=
  match Atoi shard.Shard with
  | none => Except.error parseShardError
  | some shardNumber => Except.ok (f.flagShard == -1 || f.flagShard == shardNumber)

def includeShardByPriRep (f : Flags) (shard : Shard) : Bool :=
  (f.flagPrimary && shard.PriRep == ShardPrimary) ||
    (f.flagReplica && shard.PriRep == ShardReplica) ||
    (!f.flagPrimary && !f.flagReplica)

def includeShardByNode (f : Flags) (shard : Shard) : Bool :=
  if f.flagNode == "" then true
  else shard.Node == f.flagNode

def humanizePriRep (priRep : String) : String :=
  if priRep == ShardPrimary then "primary"
  else if priRep == ShardReplica then "replica"
  else priRep

/-- The row literal built in `handleShardLogic` for one shard. -/
def shardRow (shard : Shard) : List String :=
  [shard.Index, shard.Shard, humanizePriRep shard.PriRep, shard.State, shard.Docs,
   shard.Store, shard.IP, shard.Node, shard.ID, shard.UnassignedReason,
   shard.UnassignedAt, shard.SegmentsCount]

/-- The condition of the `if` in the loop of `handleShardLogic`: the four
predicates joined by Go's short-circuit `&&`, left to right, so that
`includeShardByNumber` runs only once `includeShardByState` has returned
true. -/
def shardIncluded (f : Flags) (shard : Shard) : Except String Bool :=
  if includeShardByState f shard then
    match includeShardByNumber f shard with
    | Except.error e => Except.error e
    | Except.ok byNumber =>
      Except.ok (byNumber && includeShardByPriRep f shard && includeShardByNode f shard)
  else Except.ok false

/-- One iteration of the loop of `handleShardLogic`: `data` is the slice built
so far. -/
def shardStep (f : Flags) (data : List (List String)) (shard : Shard) :
    Except String (List (List String)) :=
  match shardIncluded f shard with
  | Except.error e => Except.error e
  | Except.ok true => Except.ok (data ++ [shardRow shard])
  | Except.ok false => Except.ok data

/-- The loop `for _, shard := range shards` of `handleShardLogic`, from the
slice `data` built so far. -/
def shardLoop (f : Flags) : List (List String) → List Shard → Except String (List (List String))
  | data, [] => Except.ok data
  | data, shard :: rest =>
    match shardStep f data shard with
    | Except.error e => Except.error e
    | Except.ok data' => shardLoop f data' rest

/-- All four predicates return true for the shard. -/
def allFourTrue (f : Flags) (shard : Shard) : Prop :=
  includeShardByState f shard = true ∧ includeShardByNumber f shard = Except.ok true ∧
    includeShardByPriRep f shard = true ∧ includeShardByNode f shard = true

/-- Equality of two results of a fallible step is decidable. -/
instance decEqExcept {ε α : Type} [DecidableEq ε] [DecidableEq α] : DecidableEq (Except ε α)
  | Except.ok x, Except.ok y =>
    if h : x = y then isTrue (by rw [h]) else isFalse (fun h' => h (by injection h'))
  | Except.error x, Except.error y =>
    if h : x = y then isTrue (by rw [h]) else isFalse (fun h' => h (by injection h'))
  | Except.ok _, Except.error _ => isFalse (fun h' => by injection h')
  | Except.error _, Except.ok _ => isFalse (fun h' => by injection h')

instance (f : Flags) (shard : Shard) : Decidable (allFourTrue f shard) :=
  inferInstanceAs (Decidable (_ ∧ _ ∧ _ ∧ _))

/-- The rows `handleShardLogic` has built when its loop ends, starting from
`data := [][]string{}`. -/
def shardRows (f : Flags) (shards : List Shard) : Except String (List (List String)) :=
  shardLoop f [] shards

/-! ## cmd/get.go: the other row literals -/

/-- The row literal built in `handleNodeLogic` for one node. -/
def nodeRow (node : Node) : List String :=
  [node.Name, node.IP, node.NodeRole, node.Master, node.HeapMax, node.HeapCurrent,
   node.HeapPercent ++ "%", node.CPU ++ "%", node.Load1m,
   node.DiskTotal, node.DiskUsed, node.DiskAvail]

/-- The row literal built in `handleIndexLogic` for one index. -/
def indexRow (index : Index) : List String :=
  [index.Index, index.UUID, index.Health, index.Status, index.Pri, index.Rep,
   index.DocsCount, index.DocsDeleted, index.CreationDate, index.StoreSize,
   index.PriStoreSize]

/-- The row literal built in `handleAliasLogic` for one entry of the alias
map. -/
def aliasRow (aliasName index : String) : List String :=
  [aliasName, index]

/-- The row literal built in `handleTaskLogic` for one task; `toString` on an
integer is the decimal rendering of `fmt.Sprintf("%d", task.ID)`. -/
def taskRow (task : Task) : List String :=
  [task.Node, toString task.ID, task.Action]

/-- A fetched record of one of the five entity kinds. -/
inductive Record where
  | node (n : Node)
  | index (i : Index)
  | shard (s : Shard)
  | aliasEntry (aliasName index : String)
  | task (t : Task)
  deriving DecidableEq, Repr

/-- The Row Projector: the row literal of the record's pipeline. -/
def project : Record → List String
  | Record.node n => nodeRow n
  | Record.index i => indexRow i
  | Record.shard s => shardRow s
  | Record.aliasEntry a i => aliasRow a i
  | Record.task t => taskRow t

/-- A source value read from a record: a string field or an integer field. -/
inductive Field where
  | str (s : String)
  | int (n : Int)
  deriving DecidableEq, Repr

/-- A source value is missing when it is Go's zero value: the empty string,
or the integer zero. -/
def Field.missing : Field → Bool
  | Field.str s => s == ""
  | Field.int n => n == 0

/-- The text of a source value when it is passed through unchanged: the
string itself, or the decimal rendering of the integer. -/
def Field.raw : Field → String
  | Field.str s => s
  | Field.int n => toString n

/-- The source field that each cell of the projected row is computed from, in
column order (read off the row literals of `cmd/get.go`). -/
def sourceFields : Record → List Field
  | Record.node n =>
    [Field.str n.Name, Field.str n.IP, Field.str n.NodeRole, Field.str n.Master,
     Field.str n.HeapMax, Field.str n.HeapCurrent, Field.str n.HeapPercent,
     Field.str n.CPU, Field.str n.Load1m, Field.str n.DiskTotal,
     Field.str n.DiskUsed, Field.str n.DiskAvail]
  | Record.index i =>
    [Field.str i.Index, Field.str i.UUID, Field.str i.Health, Field.str i.Status,
     Field.str i.Pri, Field.str i.Rep, Field.str i.DocsCount,
     Field.str i.DocsDeleted, Field.str i.CreationDate, Field.str i.StoreSize,
     Field.str i.PriStoreSize]
  | Record.shard s =>
    [Field.str s.Index, Field.str s.Shard, Field.str s.PriRep, Field.str s.State,
     Field.str s.Docs, Field.str s.Store, Field.str s.IP, Field.str s.Node,
     Field.str s.ID, Field.str s.UnassignedReason, Field.str s.UnassignedAt,
     Field.str s.SegmentsCount]
  | Record.aliasEntry a i => [Field.str a, Field.str i]
  | Record.task t => [Field.str t.Node, Field.int t.ID, Field.str t.Action]

/-- The percent-valued cells: columns HEAP-PERCENT (6) and CPU (7) of a node
row. -/
def isPercentCell : Record → Nat → Bool
  | Record.node _, 6 => true
  | Record.node _, 7 => true
  | _, _ => false

/-- The role cell: column PRI-REP (2) of a shard row. -/
def isRoleCell : Record → Nat → Bool
  | Record.shard _, 2 => true
  | _, _ => false

/-! ## output/table.go -/

inductive ColumnType where
  | Text
  | Number
  | Percent
  | DataSize
  | Date
  deriving DecidableEq, Repr

/-- The struct `ColumnDef`; its field `Type` is spelled `Typ` here. -/
structure ColumnDef where
  Header : String
  Typ : ColumnType
  deriving DecidableEq, Repr

/-- The inner loop of the empty-column detection for column `i`: rows are
scanned in order, `row[i]` is read (out of range: `none`), and the scan stops
at the first non-empty cell. -/
def columnEmpty (i : Nat) : List (List String) → Option Bool
  | [] => some true
  | row :: rest =>
    match row[i]? with
    | none => none
    | some cell => if cell != "" then some false else columnEmpty i rest

/-- The outer loop of the empty-column detection over the column indices
`is`. -/
def emptyColumnsFrom (data : List (List String)) : List Nat → Option (List Bool)
  | [] => some []
  | i :: is =>
    match columnEmpty i data with
    | none => none
    | some empty =>
      match emptyColumnsFrom data is with
      | none => none
      | some rest => some (empty :: rest)

/-- The slice `emptyColumns` of `PrintTable`. -/
def emptyColumns (columnDefs : List ColumnDef) (data : List (List String)) :
    Option (List Bool) :=
  emptyColumnsFrom data (List.range columnDefs.length)

/-- The map `headerIndexMap` of `PrintTable`, as a lookup function: entries
are written in schema order under the lower-cased header, a later write to the
same key replacing the earlier one. -/
def headerIndexMap (toLower : String → String) (columnDefs : List ColumnDef) :
    String → Option Nat :=
  columnDefs.enum.foldl
    (fun m p => fun key => if key = toLower p.2.Header then some p.1 else m key)
    (fun _ => none)

/-- Go's `<` on two strings: lexicographic order. -/
def stringLess (x y : String) : Bool :=
  decide (x.data < y.data)

/-- The closure passed to `sort.SliceStable`, on the two rows `data[i]` and
`data[j]`; an index out of range in `data[i][col]` or `data[j][col]` is
`none`. -/
def less (toLower : String → String) (index : String → Option Nat) :
    List String → List String → List String → Option Bool
  | [], _, _ => some false
  | header :: rest, rowI, rowJ =>
    match index (toLower header) with
    | none => less toLower index rest rowI rowJ
    | some col =>
      match rowI[col]?, rowJ[col]? with
      | some x, some y =>
        if x != y then some (stringLess x y) else less toLower index rest rowI rowJ
      | _, _ => none

/-- The inner loop of Go's insertion sort,
`for j := i; j > a && less(j, j-1); j-- { swap(j, j-1) }`, moving `x` to the
left. The sorted part to the left of `x` is given from right to left (its head
is `data[j-1]`) and so is the result. -/
def insertLeft {α : Type} (lt : α → α → Option Bool) (x : α) : List α → Option (List α)
  | [] => some [x]
  | y :: ys =>
    match lt x y with
    | none => none
    | some false => some (x :: y :: ys)
    | some true =>
      match insertLeft lt x ys with
      | none => none
      | some zs => some (y :: zs)

/-- The outer loop of Go's insertion sort: `sortedRev` is the sorted part,
from right to left, `rest` the elements still to be inserted. -/
def insertionLoop {α : Type} (lt : α → α → Option Bool) : List α → List α → Option (List α)
  | sortedRev, [] => some sortedRev.reverse
  | sortedRev, x :: rest =>
    match insertLeft lt x sortedRev with
    | none => none
    | some sortedRev' => insertionLoop lt sortedRev' rest

/-- Go's `sort.SliceStable`. For up to 20 elements the library runs exactly
this insertion sort; longer slices are insertion-sorted in blocks of 20 that
are then merged stably, which ends in the same order when the comparison is a
strict weak order and does not panic, as `less` is on rows that fit the
schema. -/
def SliceStable {α : Type} (lt : α → α → Option Bool) (data : List α) : Option (List α) :=
  insertionLoop lt [] data

/-- The slice `data` after the sort step of `PrintTable`. -/
def sortData (toLower : String → String) (columnDefs : List ColumnDef)
    (data : List (List String)) (sortByHeaders : List String) :
    Option (List (List String)) :=
  if sortByHeaders.length > 0 then
    SliceStable (less toLower (headerIndexMap toLower columnDefs) sortByHeaders) data
  else some data

/-- The cells written for one line: cell `i` is written unless
`emptyColumns[i]` is set; reading `emptyColumns[i]` out of range is `none`. -/
def emitCells : List Bool → List String → Option (List String)
  | _, [] => some []
  | [], _ :: _ => none
  | empty :: es, cell :: cells =>
    match emitCells es cells with
    | none => none
    | some out => some (if empty then out else cell :: out)

/-- The loop `for _, row := range data` that writes the body lines. -/
def emitRows (empty : List Bool) : List (List String) → Option (List (List String))
  | [] => some []
  | row :: rest =>
    match emitCells empty row with
    | none => none
    | some line =>
      match emitRows empty rest with
      | none => none
      | some lines => some (line :: lines)

/-- What `PrintTable` writes to its tab writer: the cells of the header line
and the cells of each body line. -/
structure Rendered where
  header : List String
  body : List (List String)
  deriving DecidableEq, Repr

/-- The bytes of one line: each cell followed by a tab, then a newline. -/
def lineText (cells : List String) : String :=
  String.join (cells.map (fun cell => cell ++ "\t")) ++ "\n"

/-- The bytes handed to the tab writer. -/
def Rendered.text (r : Rendered) : String :=
  lineText r.header ++ String.join (r.body.map lineText)

/-- The function `PrintTable`; `none` is a run-time panic. -/
def PrintTable (toLower : String → String) (columnDefs : List ColumnDef)
    (data : List (List String)) (sortByHeaders : List String) : Option Rendered :=
  match emptyColumns columnDefs data with
  | none => none
  | some empty =>
    match sortData toLower columnDefs data sortByHeaders with
    | none => none
    | some sorted =>
      match emitCells empty (columnDefs.map ColumnDef.Header) with
      | none => none
      | some header =>
        match emitRows empty sorted with
        | none => none
        | some body => some { header := header, body := body }

/-! ## cmd/get.go: the pipelines -/

def shardColumnDefs : List ColumnDef :=
  [{ Header := "INDEX", Typ := ColumnType.Text },
   { Header := "SHARD", Typ := ColumnType.Number },
   { Header := "PRI-REP", Typ := ColumnType.Text },
   { Header := "STATE", Typ := ColumnType.Text },
   { Header := "DOCS", Typ := ColumnType.Number },
   { Header := "STORE", Typ := ColumnType.DataSize },
   { Header := "IP", Typ := ColumnType.Text },
   { Header := "NODE", Typ := ColumnType.Text },
   { Header := "NODE-ID", Typ := ColumnType.Text },
   { Header := "UNASSIGNED-REASON", Typ := ColumnType.Text },
   { Header := "UNASSIGNED-AT", Typ := ColumnType.Date },
   { Header := "SEGMENTS-COUNT", Typ := ColumnType.Number }]

/-- The diagnostic of a Go index-out-of-range panic. -/
def panicError : String := "panic: runtime error: index out of range"

/-- The function `handleShardLogic` on the shards that `es.GetShards`
returned: the filter loop, then `PrintTable` with the caller's sort keys or
the default ones. -/
def handleShardLogic (toLower : String → String) (f : Flags) (shards : List Shard) :
    Except String Rendered :=
  match shardRows f shards with
  | Except.error e => Except.error e
  | Except.ok data =>
    let keys := if f.flagSortBy.length > 0 then f.flagSortBy else ["INDEX", "SHARD", "PRI-REP"]
    match PrintTable toLower shardColumnDefs data keys with
    | none => Except.error panicError
    | some out => Except.ok out

def nodeColumnDefs : List ColumnDef :=
  [{ Header := "NAME", Typ := ColumnType.Text },
   { Header := "IP", Typ := ColumnType.Text },
   { Header := "NODE-ROLE", Typ := ColumnType.Text },
   { Header := "MASTER", Typ := ColumnType.Text },
   { Header := "HEAP-MAX", Typ := ColumnType.DataSize },
   { Header := "HEAP-CURRENT", Typ := ColumnType.DataSize },
   { Header := "HEAP-PERCENT", Typ := ColumnType.Percent },
   { Header := "CPU", Typ := ColumnType.Percent },
   { Header := "LOAD-1M", Typ := ColumnType.Number },
   { Header := "DISK-TOTAL", Typ := ColumnType.DataSize },
   { Header := "DISK-USED", Typ := ColumnType.DataSize },
   { Header := "DISK-AVAILABLE", Typ := ColumnType.DataSize }]

def indexColumnDefs : List ColumnDef :=
  [{ Header := "INDEX", Typ := ColumnType.Text },
   { Header := "UUID", Typ := ColumnType.Text },
   { Header := "HEALTH", Typ := ColumnType.Text },
   { Header := "STATUS", Typ := ColumnType.Text },
   { Header := "SHARDS", Typ := ColumnType.Number },
   { Header := "REPLICAS", Typ := ColumnType.Number },
   { Header := "DOCS-COUNT", Typ := ColumnType.Number },
   { Header := "DOCS-DELETED", Typ := ColumnType.Number },
   { Header := "CREATION-DATE", Typ := ColumnType.Date },
   { Header := "STORE-SIZE", Typ := ColumnType.DataSize },
   { Header := "PRI-STORE-SIZE", Typ := ColumnType.DataSize }]

def aliasColumnDefs : List ColumnDef :=
  [{ Header := "ALIAS", Typ := ColumnType.Text },
   { Header := "INDEX", Typ := ColumnType.Text }]

def taskColumnDefs : List ColumnDef :=
  [{ Header := "NODE", Typ := ColumnType.Text },
   { Header := "ID", Typ := ColumnType.Number },
   { Header := "ACTION", Typ := ColumnType.Text }]

/-- The slice `data` that the loop of `handleNodeLogic` builds. -/
def nodeData (nodes : List Node) : List (List String) :=
  nodes.foldl (fun data node => data ++ [nodeRow node]) []

/-- The slice `data` that the loop of `handleIndexLogic` builds. -/
def indexData (indices : List Index) : List (List String) :=
  indices.foldl (fun data index => data ++ [indexRow index]) []

/-- The slice `data` that the loop of `handleAliasLogic` builds; `aliases`
holds the entries of the map in the order in which the `range` loop visits
them, an order that Go leaves unspecified. -/
def aliasData (aliases : List (String × String)) : List (List String) :=
  aliases.foldl (fun data entry => data ++ [aliasRow entry.1 entry.2]) []

/-- The slice `data` that the two nested loops of `handleTaskLogic` build. -/
def taskData (tasksResponse : TasksResponse) : List (List String) :=
  tasksResponse.Nodes.foldl
    (fun data node => node.Tasks.foldl (fun data task => data ++ [taskRow task]) data) []

/-- The end of a handler whose `PrintTable` call gave `printed`: a panic ends
the process, otherwise the handler returns. -/
def afterPrint (printed : Option Rendered) : Except String Rendered :=
  match printed with
  | none => Except.error panicError
  | some out => Except.ok out

/-- The function `handleNodeLogic` on the nodes that `es.GetNodes`
returned. -/
def handleNodeLogic (toLower : String → String) (f : Flags) (nodes : List Node) :
    Except String Rendered :=
  let keys := if f.flagSortBy.length > 0 then f.flagSortBy else ["NAME"]
  match PrintTable toLower nodeColumnDefs (nodeData nodes) keys with
  | none => Except.error panicError
  | some out => Except.ok out

/-- The function `handleIndexLogic` on the indices that `es.GetIndices`
returned. -/
def handleIndexLogic (toLower : String → String) (f : Flags) (indices : List Index) :
    Except String Rendered :=
  let keys := if f.flagSortBy.length > 0 then f.flagSortBy else ["INDEX"]
  match PrintTable toLower indexColumnDefs (indexData indices) keys with
  | none => Except.error panicError
  | some out => Except.ok out

/-- The function `handleAliasLogic` on the map that `es.GetAliases` returned:
`flagSortBy` is handed to `PrintTable` as it is. -/
def handleAliasLogic (toLower : String → String) (f : Flags)
    (aliases : List (String × String)) : Except String Rendered :=
  match PrintTable toLower aliasColumnDefs (aliasData aliases) f.flagSortBy with
  | none => Except.error panicError
  | some out => Except.ok out

/-- The function `handleTaskLogic` on the response that `es.GetTasks`
returned. -/
def handleTaskLogic (toLower : String → String) (f : Flags) (tasksResponse : TasksResponse) :
    Except String Rendered :=
  let keys := if f.flagSortBy.length > 0 then f.flagSortBy else ["NODE", "ID"]
  match PrintTable toLower taskColumnDefs (taskData tasksResponse) keys with
  | none => Except.error panicError
  | some out => Except.ok out

/-! ## cmd/get.go: the dispatch of `getCmd` -/

/-- Modelled from the spec: the fetch collaborator, package `es`. The
functions `GetNodes`, `GetIndices`, `GetShards` and `GetAliases` are absent;
`GetTasks` is declared in es/tasks.go with the parameters `(host, port)`,
while `cmd/get.go` calls it as `es.GetTasks(flagActions)`: the field below
follows the call. Each call returns typed records or an error. -/
structure Fetch where
  GetNodes : Except String (List Node)
  GetIndices : String → Except String (List Index)
  GetShards : String → Except String (List Shard)
  GetAliases : String → Except String (List (String × String))
  GetTasks : List String → Except String TasksResponse

/-- The start of every handler: the fetch call, and on an error the
diagnostic "Failed to retrieve ...:" followed by the error, then
`os.Exit(1)`. -/
def afterFetch {α : Type} (what : String) (fetched : Except String α)
    (rest : α → Except String Rendered) : Except String Rendered :=
  match fetched with
  | Except.error err => Except.error ("Failed to retrieve " ++ what ++ ": " ++ err)
  | Except.ok records => rest records

/-- The five pipelines, one per handler. -/
inductive Pipeline where
  | nodes
  | indices
  | shards
  | aliases
  | tasks
  deriving DecidableEq, Repr

/-- The `switch entity` of `getCmd.Run`: the case that is taken, `none` for
the default case. -/
def selectPipeline (entity : String) : Option Pipeline :=
  if entity == EntityNode || entity == EntityNodes then some Pipeline.nodes
  else if entity == EntityIndex || entity == EntityIndices then some Pipeline.indices
  else if entity == EntityShard || entity == EntityShards then some Pipeline.shards
  else if entity == EntityAlias || entity == EntityAliases then some Pipeline.aliases
  else if entity == EntityTask || entity == EntityTasks then some Pipeline.tasks
  else none

/-- The handler called in each case of the switch. -/
def runPipeline (es : Fetch) (toLower : String → String) (f : Flags) :
    Pipeline → Except String Rendered
  | Pipeline.nodes => afterFetch "nodes" es.GetNodes (handleNodeLogic toLower f)
  | Pipeline.indices => afterFetch "indices" (es.GetIndices f.flagIndex) (handleIndexLogic toLower f)
  | Pipeline.shards => afterFetch "shards" (es.GetShards f.flagIndex) (handleShardLogic toLower f)
  | Pipeline.aliases => afterFetch "aliases" (es.GetAliases f.flagIndex) (handleAliasLogic toLower f)
  | Pipeline.tasks => afterFetch "tasks" (es.GetTasks f.flagActions) (handleTaskLogic toLower f)

/-- The line printed in the default case of the switch. -/
def unknownEntityError (entity : String) : String :=
  "Unknown entity: " ++ entity ++ "\n"

/-- The function `Run` of `getCmd` on `entity := args[0]`. -/
def getCmdRun (es : Fetch) (toLower : String → String) (f : Flags) (entity : String) :
    Except String Rendered :=
  match selectPipeline entity with
  | some pipeline => runPipeline es toLower f pipeline
  | none => Except.error (unknownEntityError entity)

/-- The exit status of the process: 0 after a normal return, 1 after
`os.Exit(1)`, 2 after a panic. -/
def exitStatus {α : Type} : Except String α → Nat
  | Except.ok _ => 0
  | Except.error e => if e = panicError then 2 else 1

/-! ## Notions used to state the properties of the renderer -/

/-- The effective sort keys: the column of each requested key that resolves
to a column, in the order of the key list. -/
def effectiveKeys (toLower : String → String) (columnDefs : List ColumnDef)
    (sortByHeaders : List String) : List Nat :=
  sortByHeaders.filterMap (fun header => headerIndexMap toLower columnDefs (toLower header))

/-- The comparison of `less` once the keys are resolved to columns. -/
def lessOn : List Nat → List String → List String → Option Bool
  | [], _, _ => some false
  | col :: rest, rowI, rowJ =>
    match rowI[col]?, rowJ[col]? with
    | some x, some y =>
      if x != y then some (stringLess x y) else lessOn rest rowI rowJ
    | _, _ => none

/-- Two rows have equal cells at every one of the columns. -/
def agreeOn (columns : List Nat) (a b : List String) : Prop :=
  ∀ col ∈ columns, a[col]? = b[col]?

instance (columns : List Nat) (a b : List String) : Decidable (agreeOn columns a b) :=
  inferInstanceAs (Decidable (∀ col ∈ columns, a[col]? = b[col]?))

/-- At the first of the columns where the two rows differ, the cell of `a` is
the lexicographically smaller string. -/
def firstDiffLess (columns : List Nat) (a b : List String) : Prop :=
  ∃ (before : List Nat) (col : Nat) (after : List Nat) (x y : String),
    columns = before ++ col :: after ∧ agreeOn before a b ∧
    a[col]? = some x ∧ b[col]? = some y ∧ x ≠ y ∧ stringLess x y = true

/-- Row `a` may stand right before row `b`: they agree on every column, or `a`
is smaller at the first column where they differ. -/
def inOrder (columns : List Nat) (a b : List String) : Prop :=
  agreeOn columns a b ∨ firstDiffLess columns a b

/-- Some row has a non-empty cell at index `i`. -/
def hasData (data : List (List String)) (i : Nat) : Bool :=
  data.any (fun row => match row[i]? with
    | some cell => cell != ""
    | none => false)

/-- The column indices that are not elided, in schema order. -/
def keptColumns (columnDefs : List ColumnDef) (data : List (List String)) : List Nat :=
  (List.range columnDefs.length).filter (hasData data)

/-- The cells of a row at the given indices. -/
def cellsAt (indices : List Nat) (row : List String) : List String :=
  indices.filterMap (fun i => row[i]?)

/-- The renderer as the spec words it for the elision, "a rendering step,
applied after sorting": the rows are sorted first, and only then are the empty
columns detected, on the sorted rows, and suppressed. To be compared with
`PrintTable`, which detects the empty columns before it sorts. -/
def PrintTableSortFirst (toLower : String → String) (columnDefs : List ColumnDef)
    (data : List (List String)) (sortByHeaders : List String) : Option Rendered :=
  match sortData toLower columnDefs data sortByHeaders with
  | none => none
  | some sorted =>
    match emptyColumns columnDefs sorted with
    | none => none
    | some empty =>
      match emitCells empty (columnDefs.map ColumnDef.Header) with
      | none => none
      | some header =>
        match emitRows empty sorted with
        | none => none
        | some body => some { header := header, body := body }

/-! ## Concrete inputs -/

/-- A shard record with the given number, role, state and node, in index "a". -/
def mkShard (number priRep state node : String) : Shard :=
  { Index := "a", Shard := number, PriRep := priRep, State := state, Docs := "",
    Store := "", IP := "", Node := node, ID := "", UnassignedReason := "",
    UnassignedAt := "", SegmentsCount := "" }

/-- A node record all of whose fields are missing. -/
def emptyNode : Node :=
  { Name := "", IP := "", NodeRole := "", Master := "", HeapMax := "", HeapCurrent := "",
    HeapPercent := "", CPU := "", Load1m := "", DiskTotal := "", DiskUsed := "",
    DiskAvail := "" }

/-- A schema of two columns, NAME and COUNT. -/
def nameCountColumns : List ColumnDef :=
  [{ Header := "NAME", Typ := ColumnType.Text }, { Header := "COUNT", Typ := ColumnType.Number }]

/-- A schema of three columns, NAME, COUNT and PASSWORD. -/
def passwordColumns : List ColumnDef :=
  [{ Header := "NAME", Typ := ColumnType.Text }, { Header := "COUNT", Typ := ColumnType.Number },
   { Header := "PASSWORD", Typ := ColumnType.Text }]

/-- The schema NAME, COUNT with other type tags. -/
def nameCountColumnsRetyped : List ColumnDef :=
  [{ Header := "NAME", Typ := ColumnType.Date }, { Header := "COUNT", Typ := ColumnType.Text }]

/-- A cluster with one node, two shards and two aliases, whose index listing
fails. -/
def sampleFetch : Fetch :=
  { GetNodes := Except.ok [{ emptyNode with Name := "n1" }],
    GetIndices := fun _ => Except.error "connection refused",
    GetShards := fun _ => Except.ok [mkShard "1" "r" "STARTED" "n1", mkShard "0" "p" "STARTED" "n1"],
    GetAliases := fun _ => Except.ok [("b", "i1"), ("a", "i2")],
    GetTasks := fun _ => Except.ok { Nodes := [] } }

/-! ## The shard filter -/

theorem shardIncluded_of_parse (f : Flags) (shard : Shard) (n : Int)
    (h : Atoi shard.Shard = some n) :
    shardIncluded f shard = Except.ok (decide (allFourTrue f shard)) := by
  have hnum : includeShardByNumber f shard =
      Except.ok (f.flagShard == -1 || f.flagShard == n) := by
    simp [includeShardByNumber, h]
  cases hs : includeShardByState f shard <;> cases hn : (f.flagShard == -1 || f.flagShard == n) <;>
    cases hp : includeShardByPriRep f shard <;> cases hd : includeShardByNode f shard <;>
    simp [shardIncluded, allFourTrue, hnum, hs, hn, hp, hd]

theorem shardLoop_of_parse (f : Flags) (shards : List Shard)
    (h : ∀ s ∈ shards, ∃ n, Atoi s.Shard = some n) (data : List (List String)) :
    shardLoop f data shards =
      Except.ok (data ++ (shards.filter (fun s => decide (allFourTrue f s))).map shardRow) := by
  induction shards generalizing data with
  | nil => simp [shardLoop]
  | cons s rest ih =>
    obtain ⟨n, hn⟩ := h s (List.mem_cons_self s rest)
    have hrest : ∀ t ∈ rest, ∃ n, Atoi t.Shard = some n :=
      fun t ht => h t (List.mem_cons_of_mem s ht)
    unfold shardLoop shardStep
    rw [shardIncluded_of_parse f s n hn]
    by_cases hall : allFourTrue f s
    · simp [hall, ih hrest]
    · simp [hall, ih hrest]

theorem shardLoop_error_iff (f : Flags) (shards : List Shard) (data : List (List String))
    (e : String) :
    shardLoop f data shards = Except.error e ↔
      e = parseShardError ∧ ∃ s ∈ shards, includeShardByState f s = true ∧ Atoi s.Shard = none := by
  induction shards generalizing data with
  | nil => simp [shardLoop]
  | cons s rest ih =>
    cases hs : includeShardByState f s
    · have hstep : shardStep f data s = Except.ok data := by
        simp [shardStep, shardIncluded, hs]
      simp [shardLoop, hstep, ih, hs]
    · cases hn : Atoi s.Shard with
      | none =>
        have hstep : shardStep f data s = Except.error parseShardError := by
          simp [shardStep, shardIncluded, includeShardByNumber, hs, hn]
        simp only [shardLoop, hstep, List.mem_cons, exists_eq_or_imp, hs, hn, and_self, true_or,
          and_true]
        constructor
        · intro h
          injection h with h
          exact h.symm
        · intro h
          rw [h]
      | some n =>
        have hinc := shardIncluded_of_parse f s n hn
        by_cases hall : allFourTrue f s
        · have hstep : shardStep f data s = Except.ok (data ++ [shardRow s]) := by
            simp [shardStep, hinc, hall]
          simp [shardLoop, hstep, ih, hn]
        · have hstep : shardStep f data s = Except.ok data := by
            simp [shardStep, hinc, hall]
          simp [shardLoop, hstep, ih, hn]

/-- C1: for every setting of the flags and every shard whose shard field
parses as an integer, the loop body of handleShardLogic appends the row of
that shard exactly when all four predicates return true for it, and leaves the
rows unchanged otherwise; over a list of parseable shards the rows built are
exactly the rows of the shards for which all four return true. -/
theorem handleShardLogic_includes_iff (f : Flags) (shard : Shard) (n : Int)
    (h : Atoi shard.Shard = some n) :
    (∀ data : List (List String),
      (shardStep f data shard = Except.ok (data ++ [shardRow shard]) ↔ allFourTrue f shard) ∧
      (shardStep f data shard = Except.ok data ↔ ¬ allFourTrue f shard)) ∧
    (∀ shards : List Shard, (∀ s ∈ shards, ∃ k, Atoi s.Shard = some k) →
      shardRows f shards =
        Except.ok ((shards.filter (fun s => decide (allFourTrue f s))).map shardRow)) := by
  refine ⟨fun data => ?_, fun shards hs => ?_⟩
  · unfold shardStep
    rw [shardIncluded_of_parse f shard n h]
    by_cases hall : allFourTrue f shard <;> simp [hall]
  · simpa [shardRows] using shardLoop_of_parse f shards hs []

/-- Witness of C1: the shard numbered 5 under the flag --shard 5. -/
theorem handleShardLogic_includes_iff_witness :
    Atoi (mkShard "5" "p" "STARTED" "n1").Shard = some 5 ∧
    (shardStep { defaultFlags with flagShard := 5 } [] (mkShard "5" "p" "STARTED" "n1") =
        Except.ok ([] ++ [shardRow (mkShard "5" "p" "STARTED" "n1")]) ↔
      allFourTrue { defaultFlags with flagShard := 5 } (mkShard "5" "p" "STARTED" "n1")) :=
  ⟨by decide,
   ((handleShardLogic_includes_iff { defaultFlags with flagShard := 5 }
      (mkShard "5" "p" "STARTED" "n1") 5 (by decide)).1 []).1⟩

/-- C2 as stated fails: with --started, a record in state UNASSIGNED whose
shard field is "x" is left out and the pipeline succeeds with an empty
table. -/
theorem handleShardLogic_malformed_counterexample :
    ¬ (∀ (f : Flags) (shards : List Shard), (∃ s ∈ shards, Atoi s.Shard = none) →
        handleShardLogic asciiToLower f shards = Except.error parseShardError) := by
  intro h
  have h1 := h { defaultFlags with flagStarted := true } [mkShard "x" "p" "UNASSIGNED" "n1"]
    ⟨mkShard "x" "p" "UNASSIGNED" "n1", List.mem_singleton_self _, by decide⟩
  revert h1
  decide

/-- C2, amended: the shard pipeline ends in the fatal error "Failed to parse
shard number" exactly when the fetched list holds a record that
includeShardByState admits and whose shard field does not parse as an integer;
whatever the other flags are. -/
theorem handleShardLogic_fatal_iff (toLower : String → String) (f : Flags)
    (shards : List Shard) :
    handleShardLogic toLower f shards = Except.error parseShardError ↔
      ∃ s ∈ shards, includeShardByState f s = true ∧ Atoi s.Shard = none := by
  unfold handleShardLogic
  cases hrows : shardRows f shards with
  | error e =>
    have h := (shardLoop_error_iff f shards [] e).mp hrows
    constructor
    · intro _
      exact h.2
    · intro _
      simp [h.1]
  | ok data =>
    have hne : ¬ ∃ s ∈ shards, includeShardByState f s = true ∧ Atoi s.Shard = none := by
      intro hex
      have h := (shardLoop_error_iff f shards [] parseShardError).mpr ⟨rfl, hex⟩
      simp [shardRows] at hrows
      rw [h] at hrows
      cases hrows
    simp only [hne, iff_false]
    cases PrintTable toLower shardColumnDefs data
      (if f.flagSortBy.length > 0 then f.flagSortBy else ["INDEX", "SHARD", "PRI-REP"]) with
    | none =>
      intro h
      injection h with h
      revert h
      decide
    | some out =>
      intro h
      cases h

/-- C3 as stated fails: with both --primary and --replica a record whose
PriRep is the empty string is rejected, with neither it is admitted. -/
theorem includeShardByPriRep_both_counterexample :
    ¬ (∀ shard : Shard,
        includeShardByPriRep { defaultFlags with flagPrimary := true, flagReplica := true } shard =
          includeShardByPriRep defaultFlags shard) := by
  intro h
  have h1 := h (mkShard "0" "" "UNASSIGNED" "")
  revert h1
  decide

/-- C3, amended: with both flags set a record is admitted exactly when its
PriRep is "p" or "r"; with neither set every record is admitted; so on records
whose PriRep is "p" or "r" the two settings agree. -/
theorem includeShardByPriRep_both (f g : Flags) (shard : Shard)
    (hf : f.flagPrimary = true ∧ f.flagReplica = true)
    (hg : g.flagPrimary = false ∧ g.flagReplica = false) :
    includeShardByPriRep g shard = true ∧
    (includeShardByPriRep f shard = true ↔
      (shard.PriRep = ShardPrimary ∨ shard.PriRep = ShardReplica)) ∧
    ((shard.PriRep = ShardPrimary ∨ shard.PriRep = ShardReplica) →
      includeShardByPriRep f shard = includeShardByPriRep g shard) := by
  have h1 : includeShardByPriRep g shard = true := by
    simp [includeShardByPriRep, hg.1, hg.2]
  have h2 : includeShardByPriRep f shard = true ↔
      (shard.PriRep = ShardPrimary ∨ shard.PriRep = ShardReplica) := by
    simp [includeShardByPriRep, hf.1, hf.2]
  exact ⟨h1, h2, fun h => by rw [h1]; exact h2.mpr h⟩

/-- Witness of C3, amended: a primary shard under both flags and under
neither. -/
theorem includeShardByPriRep_both_witness :
    includeShardByPriRep defaultFlags (mkShard "0" "p" "STARTED" "n1") = true ∧
    includeShardByPriRep { defaultFlags with flagPrimary := true, flagReplica := true }
      (mkShard "0" "p" "STARTED" "n1") = true :=
  have h := includeShardByPriRep_both
    { defaultFlags with flagPrimary := true, flagReplica := true } defaultFlags
    (mkShard "0" "p" "STARTED" "n1") (by decide) (by decide)
  ⟨h.1, h.2.1.mpr (by decide)⟩

/-- C7: when every fetched shard number parses, the rows handleShardLogic
builds before sorting are the rows of a subsequence of the fetched list, in
fetch order (the shards for which all four predicates hold), and there are no
more rows than fetched records. -/
theorem shardRows_subsequence (f : Flags) (shards : List Shard)
    (h : ∀ s ∈ shards, (Atoi s.Shard).isSome = true) :
    ∃ kept : List Shard, kept.Sublist shards ∧
      kept = shards.filter (fun s => decide (allFourTrue f s)) ∧
      shardRows f shards = Except.ok (kept.map shardRow) ∧
      (kept.map shardRow).length ≤ shards.length := by
  have h' : ∀ s ∈ shards, ∃ n, Atoi s.Shard = some n :=
    fun s hs => Option.isSome_iff_exists.mp (h s hs)
  refine ⟨shards.filter (fun s => decide (allFourTrue f s)), List.filter_sublist _, rfl, ?_, ?_⟩
  · simpa [shardRows] using shardLoop_of_parse f shards h' []
  · rw [List.length_map]
    exact List.length_filter_le _ _

/-- Witness of C7: shard numbers 3, 5, 5 under --shard 5. -/
theorem shardRows_subsequence_witness :
    ∃ kept : List Shard,
      kept.Sublist [mkShard "3" "p" "STARTED" "n1", mkShard "5" "p" "STARTED" "n1",
        mkShard "5" "r" "STARTED" "n2"] ∧
      kept = [mkShard "3" "p" "STARTED" "n1", mkShard "5" "p" "STARTED" "n1",
        mkShard "5" "r" "STARTED" "n2"].filter
          (fun s => decide (allFourTrue { defaultFlags with flagShard := 5 } s)) ∧
      shardRows { defaultFlags with flagShard := 5 }
        [mkShard "3" "p" "STARTED" "n1", mkShard "5" "p" "STARTED" "n1",
          mkShard "5" "r" "STARTED" "n2"] = Except.ok (kept.map shardRow) ∧
      (kept.map shardRow).length ≤
        [mkShard "3" "p" "STARTED" "n1", mkShard "5" "p" "STARTED" "n1",
          mkShard "5" "r" "STARTED" "n2"].length :=
  shardRows_subsequence { defaultFlags with flagShard := 5 }
    [mkShard "3" "p" "STARTED" "n1", mkShard "5" "p" "STARTED" "n1",
      mkShard "5" "r" "STARTED" "n2"] (by decide)

/-! ## The row projections -/

theorem toString_int_zero : toString (0 : Int) = "0" := by
  decide

/-- C9 as stated fails: a node whose HeapPercent is missing has the cell "%"
in column HEAP-PERCENT, which is neither the empty string nor "0". -/
theorem project_missing_counterexample :
    ¬ (∀ (r : Record) (i : Nat) (fld : Field) (cell : String),
        (sourceFields r)[i]? = some fld → fld.missing = true →
        (project r)[i]? = some cell → cell = "" ∨ cell = "0") := by
  intro h
  have h1 := h (Record.node emptyNode) 6 (Field.str "") "%" (by decide) (by decide) (by decide)
  revert h1
  decide

/-- C9, amended: the projected row has one cell per source field, and a cell
whose source value is missing is the empty string or "0", except the two
percent cells of a node row (HEAP-PERCENT, CPU), which are then "%". -/
theorem project_missing (r : Record) (i : Nat) (fld : Field)
    (hfld : (sourceFields r)[i]? = some fld) (hmiss : fld.missing = true) :
    (project r).length = (sourceFields r).length ∧
    ∃ cell, (project r)[i]? = some cell ∧
      (isPercentCell r i = true → cell = "%") ∧
      (isPercentCell r i = false → cell = "" ∨ cell = "0") := by
  refine ⟨by cases r <;> rfl, ?_⟩
  cases r with
  | node n =>
    rcases i with _|_|_|_|_|_|_|_|_|_|_|_|i <;>
      simp [sourceFields] at hfld <;> subst hfld <;>
      simp [Field.missing] at hmiss <;>
      simp [project, nodeRow, isPercentCell, hmiss]
  | index x =>
    rcases i with _|_|_|_|_|_|_|_|_|_|_|i <;>
      simp [sourceFields] at hfld <;> subst hfld <;>
      simp [Field.missing] at hmiss <;>
      simp [project, indexRow, isPercentCell, hmiss]
  | shard sh =>
    rcases i with _|_|_|_|_|_|_|_|_|_|_|_|i <;>
      simp [sourceFields] at hfld <;> subst hfld <;>
      simp [Field.missing] at hmiss <;>
      simp [project, shardRow, isPercentCell, hmiss, humanizePriRep, ShardPrimary, ShardReplica]
  | aliasEntry a x =>
    rcases i with _|_|i <;>
      simp [sourceFields] at hfld <;> subst hfld <;>
      simp [Field.missing] at hmiss <;>
      simp [project, aliasRow, isPercentCell, hmiss]
  | task t =>
    rcases i with _|_|_|i <;>
      simp [sourceFields] at hfld <;> subst hfld <;>
      simp [Field.missing] at hmiss <;>
      simp [project, taskRow, isPercentCell, hmiss, toString_int_zero]

/-- Witness of C9, amended: the CPU cell of a node without values. -/
theorem project_missing_witness :
    (sourceFields (Record.node emptyNode))[7]? = some (Field.str "") ∧
    ∃ cell, (project (Record.node emptyNode))[7]? = some cell ∧
      (isPercentCell (Record.node emptyNode) 7 = true → cell = "%") ∧
      (isPercentCell (Record.node emptyNode) 7 = false → cell = "" ∨ cell = "0") :=
  ⟨by decide, (project_missing (Record.node emptyNode) 7 (Field.str "") (by decide) (by decide)).2⟩

/-- C10 as stated fails: the role cell of a shard whose PriRep is "p" is
"primary", not the source string. -/
theorem project_passthrough_counterexample :
    ¬ (∀ (r : Record) (i : Nat) (fld : Field) (cell : String),
        (sourceFields r)[i]? = some fld → (project r)[i]? = some cell →
        cell = if isPercentCell r i then fld.raw ++ "%" else fld.raw) := by
  intro h
  have h1 := h (Record.shard (mkShard "0" "p" "STARTED" "n1")) 2 (Field.str "p") "primary"
    (by decide) (by decide)
  revert h1
  decide

/-- C10, amended: every cell of the projected row is its source value
unchanged (an integer id in decimal), except the percent cells of a node row,
which are the source string followed by "%", and the role cell of a shard row,
which is humanizePriRep of the source string: "primary" for "p", "replica" for
"r", the string itself otherwise. -/
theorem project_passthrough (r : Record) (i : Nat) (fld : Field)
    (hfld : (sourceFields r)[i]? = some fld) :
    (project r)[i]? = some
      (if isPercentCell r i then fld.raw ++ "%"
       else if isRoleCell r i then humanizePriRep fld.raw
       else fld.raw) ∧
    humanizePriRep "p" = "primary" ∧ humanizePriRep "r" = "replica" ∧
    (∀ s : String, s ≠ "p" → s ≠ "r" → humanizePriRep s = s) := by
  refine ⟨?_, by decide, by decide, fun s hp hr => by
    simp [humanizePriRep, ShardPrimary, ShardReplica, hp, hr]⟩
  cases r with
  | node n =>
    rcases i with _|_|_|_|_|_|_|_|_|_|_|_|i <;>
      simp [sourceFields] at hfld <;> subst hfld <;>
      simp [project, nodeRow, isPercentCell, isRoleCell, Field.raw]
  | index x =>
    rcases i with _|_|_|_|_|_|_|_|_|_|_|i <;>
      simp [sourceFields] at hfld <;> subst hfld <;>
      simp [project, indexRow, isPercentCell, isRoleCell, Field.raw]
  | shard sh =>
    rcases i with _|_|_|_|_|_|_|_|_|_|_|_|i <;>
      simp [sourceFields] at hfld <;> subst hfld <;>
      simp [project, shardRow, isPercentCell, isRoleCell, Field.raw]
  | aliasEntry a x =>
    rcases i with _|_|i <;>
      simp [sourceFields] at hfld <;> subst hfld <;>
      simp [project, aliasRow, isPercentCell, isRoleCell, Field.raw]
  | task t =>
    rcases i with _|_|_|i <;>
      simp [sourceFields] at hfld <;> subst hfld <;>
      simp [project, taskRow, isPercentCell, isRoleCell, Field.raw]

/-- Witness of C10, amended: the role cell of a primary shard. -/
theorem project_passthrough_witness :
    (sourceFields (Record.shard (mkShard "0" "p" "STARTED" "n1")))[2]? = some (Field.str "p") ∧
    (project (Record.shard (mkShard "0" "p" "STARTED" "n1")))[2]? = some "primary" :=
  ⟨by decide,
   (project_passthrough (Record.shard (mkShard "0" "p" "STARTED" "n1")) 2 (Field.str "p")
      (by decide)).1⟩

/-! ## The insertion sort -/

section InsertionSort

variable {α : Type} (lt : α → α → Option Bool)

theorem insertLeft_cons_some {x y : α} {ys zs : List α}
    (h : insertLeft lt x (y :: ys) = some zs) :
    (lt x y = some false ∧ zs = x :: y :: ys) ∨
    (lt x y = some true ∧ ∃ zs', insertLeft lt x ys = some zs' ∧ zs = y :: zs') := by
  unfold insertLeft at h
  cases hlt : lt x y with
  | none => simp [hlt] at h
  | some b =>
    cases b with
    | false =>
      simp [hlt] at h
      exact Or.inl ⟨rfl, h.symm⟩
    | true =>
      cases hrec : insertLeft lt x ys with
      | none => simp [hlt, hrec] at h
      | some zs' =>
        simp [hlt, hrec] at h
        exact Or.inr ⟨rfl, zs', rfl, h.symm⟩

theorem insertionLoop_cons_some {x : α} {acc rest out : List α}
    (h : insertionLoop lt acc (x :: rest) = some out) :
    ∃ acc', insertLeft lt x acc = some acc' ∧ insertionLoop lt acc' rest = some out := by
  unfold insertionLoop at h
  cases hins : insertLeft lt x acc with
  | none => simp [hins] at h
  | some acc' =>
    simp [hins] at h
    exact ⟨acc', rfl, h⟩

theorem insertLeft_perm (x : α) :
    ∀ (ys zs : List α), insertLeft lt x ys = some zs → zs.Perm (x :: ys)
  | [], zs, h => by
    simp [insertLeft] at h
    subst h
    exact List.Perm.refl _
  | y :: ys, zs, h => by
    rcases insertLeft_cons_some lt h with ⟨_, hz⟩ | ⟨_, zs', hrec, hz⟩
    · subst hz
      exact List.Perm.refl _
    · subst hz
      exact ((insertLeft_perm x ys zs' hrec).cons y).trans (List.Perm.swap x y ys)

theorem insertionLoop_perm :
    ∀ (rest acc out : List α), insertionLoop lt acc rest = some out →
      out.Perm (acc.reverse ++ rest)
  | [], acc, out, h => by
    simp [insertionLoop] at h
    subst h
    simp
  | x :: rest, acc, out, h => by
    obtain ⟨acc', hins, hloop⟩ := insertionLoop_cons_some lt h
    have h1 := insertionLoop_perm rest acc' out hloop
    have h2 : acc'.reverse.Perm (x :: acc.reverse) :=
      (List.reverse_perm acc').trans
        ((insertLeft_perm lt x acc acc' hins).trans ((List.reverse_perm acc).symm.cons x))
    refine h1.trans ?_
    refine (h2.append_right rest).trans ?_
    exact List.perm_middle.symm

/-- Elements that the comparison never orders strictly keep their relative
order: the sort step does not change the sublist picked by a predicate that
never holds on both sides of a strict comparison. -/
theorem insertLeft_filter (p : α → Bool)
    (hp : ∀ a b, lt a b = some true → ¬ (p a = true ∧ p b = true)) (x : α) :
    ∀ (ys zs : List α), insertLeft lt x ys = some zs →
      zs.filter p = (x :: ys).filter p
  | [], zs, h => by
    simp [insertLeft] at h
    subst h
    rfl
  | y :: ys, zs, h => by
    rcases insertLeft_cons_some lt h with ⟨_, hz⟩ | ⟨hxy, zs', hrec, hz⟩
    · subst hz
      rfl
    · subst hz
      have ih := insertLeft_filter p hp x ys zs' hrec
      have hnot := hp x y hxy
      cases hpx : p x <;> cases hpy : p y <;> simp_all [List.filter_cons]

theorem insertionLoop_filter (p : α → Bool)
    (hp : ∀ a b, lt a b = some true → ¬ (p a = true ∧ p b = true)) :
    ∀ (rest acc out : List α), insertionLoop lt acc rest = some out →
      out.filter p = (acc.reverse ++ rest).filter p
  | [], acc, out, h => by
    simp [insertionLoop] at h
    subst h
    simp
  | x :: rest, acc, out, h => by
    obtain ⟨acc', hins, hloop⟩ := insertionLoop_cons_some lt h
    have h1 := insertionLoop_filter p hp rest acc' out hloop
    have h2 := insertLeft_filter lt p hp x acc acc' hins
    rw [h1, List.filter_append, List.filter_append, List.filter_reverse, h2]
    simp [List.filter_cons, List.filter_reverse]
    cases p x <;> simp

theorem insertLeft_head (x : α) :
    ∀ (ys zs : List α), insertLeft lt x ys = some zs →
      zs.head? = some x ∨ zs.head? = ys.head?
  | [], zs, h => by
    simp [insertLeft] at h
    subst h
    exact Or.inl rfl
  | y :: ys, zs, h => by
    rcases insertLeft_cons_some lt h with ⟨_, hz⟩ | ⟨_, zs', _, hz⟩
    · subst hz
      exact Or.inl rfl
    · subst hz
      exact Or.inr rfl

/-- The sorted part stays ordered: if a strict comparison implies `R` and a
failed one implies `R` the other way round, every neighbour pair of the
right-to-left sorted part is in `flip R` after an insertion. -/
theorem insertLeft_chain (R : α → α → Prop)
    (htrue : ∀ a b, lt a b = some true → R a b)
    (hfalse : ∀ a b, lt a b = some false → R b a) (x : α) :
    ∀ (ys zs : List α), insertLeft lt x ys = some zs →
      List.Chain' (flip R) ys → List.Chain' (flip R) zs
  | [], zs, h, _ => by
    simp [insertLeft] at h
    subst h
    exact List.chain'_singleton x
  | y :: ys, zs, h, hc => by
    rcases insertLeft_cons_some lt h with ⟨hxy, hz⟩ | ⟨hxy, zs', hrec, hz⟩
    · subst hz
      exact List.chain'_cons.mpr ⟨hfalse x y hxy, hc⟩
    · subst hz
      have hc' := List.chain'_cons'.mp hc
      have ih := insertLeft_chain R htrue hfalse x ys zs' hrec hc'.2
      refine List.chain'_cons'.mpr ⟨?_, ih⟩
      intro z hz
      rcases insertLeft_head lt x ys zs' hrec with hx | hy
      · rw [hx] at hz
        cases hz
        exact htrue x y hxy
      · rw [hy] at hz
        exact hc'.1 z hz

theorem insertionLoop_chain (R : α → α → Prop)
    (htrue : ∀ a b, lt a b = some true → R a b)
    (hfalse : ∀ a b, lt a b = some false → R b a) :
    ∀ (rest acc out : List α), insertionLoop lt acc rest = some out →
      List.Chain' (flip R) acc → List.Chain' R out
  | [], acc, out, h, hc => by
    simp [insertionLoop] at h
    subst h
    exact List.chain'_reverse.mpr hc
  | x :: rest, acc, out, h, hc => by
    obtain ⟨acc', hins, hloop⟩ := insertionLoop_cons_some lt h
    exact insertionLoop_chain R htrue hfalse rest acc' out hloop
      (insertLeft_chain lt R htrue hfalse x acc acc' hins hc)

/-- The sort step cannot fail when every comparison among the elements at hand
succeeds. -/
theorem insertLeft_isSome (x : α) :
    ∀ (ys : List α), (∀ y ∈ ys, (lt x y).isSome = true) → (insertLeft lt x ys).isSome = true
  | [], _ => rfl
  | y :: ys, h => by
    have hy := h y (List.mem_cons_self y ys)
    have ih := insertLeft_isSome x ys (fun z hz => h z (List.mem_cons_of_mem y hz))
    obtain ⟨b, hb⟩ := Option.isSome_iff_exists.mp hy
    obtain ⟨zs, hzs⟩ := Option.isSome_iff_exists.mp ih
    unfold insertLeft
    cases b <;> simp [hb, hzs]

theorem insertionLoop_isSome :
    ∀ (rest acc : List α),
      (∀ a ∈ acc ++ rest, ∀ b ∈ acc ++ rest, (lt a b).isSome = true) →
      (insertionLoop lt acc rest).isSome = true
  | [], _, _ => rfl
  | x :: rest, acc, h => by
    have hx : (insertLeft lt x acc).isSome = true :=
      insertLeft_isSome lt x acc (fun y hy => h x (by simp) y (by simp [hy]))
    obtain ⟨acc', hacc⟩ := Option.isSome_iff_exists.mp hx
    have hperm := insertLeft_perm lt x acc acc' hacc
    have hmem : ∀ a, a ∈ acc' ++ rest → a ∈ acc ++ x :: rest := by
      intro a ha
      rcases List.mem_append.mp ha with ha | ha
      · rcases List.mem_cons.mp (hperm.mem_iff.mp ha) with ha | ha
        · simp [ha]
        · simp [ha]
      · simp [ha]
    have ih := insertionLoop_isSome rest acc'
      (fun a ha b hb => h a (hmem a ha) b (hmem b hb))
    unfold insertionLoop
    simpa [hacc] using ih

/-- A comparison that never answers true leaves the slice as it is. -/
theorem insertionLoop_of_never (hnever : ∀ a b, lt a b = some false) :
    ∀ (rest acc : List α), insertionLoop lt acc rest = some (acc.reverse ++ rest)
  | [], acc => by simp [insertionLoop]
  | x :: rest, acc => by
    have hins : insertLeft lt x acc = some (x :: acc) := by
      cases acc with
      | nil => rfl
      | cons y ys => simp [insertLeft, hnever x y]
    unfold insertionLoop
    simp [hins, insertionLoop_of_never hnever rest (x :: acc)]

end InsertionSort

/-! ## Sort keys and the comparison -/

theorem stringLess_iff (x y : String) : stringLess x y = true ↔ x < y := by
  simp [stringLess, String.lt_iff_toList_lt]

theorem stringLess_total {x y : String} (hne : x ≠ y) (h : stringLess x y = false) :
    stringLess y x = true := by
  have hnot : ¬ x < y := by
    intro hlt
    rw [(stringLess_iff x y).mpr hlt] at h
    cases h
  exact (stringLess_iff y x).mpr (lt_of_le_of_ne (not_lt.mp hnot) (Ne.symm hne))

theorem headerIndexMap_fold (toLower : String → String) (key : String) :
    ∀ (cols : List ColumnDef) (n : Nat) (m : String → Option Nat),
      ((cols.enumFrom n).foldl
          (fun m p => fun key => if key = toLower p.2.Header then some p.1 else m key) m key = none ↔
        (m key = none ∧ ∀ c ∈ cols, toLower c.Header ≠ key)) ∧
      (∀ i, (cols.enumFrom n).foldl
          (fun m p => fun key => if key = toLower p.2.Header then some p.1 else m key) m key = some i →
        m key = some i ∨ (n ≤ i ∧ i < n + cols.length))
  | [], n, m => by
    simp only [List.enumFrom_nil, List.foldl_nil, List.not_mem_nil, false_implies, implies_true,
      and_true, true_and]
    exact fun i hi => Or.inl hi
  | c :: cols, n, m => by
    have ih := headerIndexMap_fold toLower key cols (n + 1)
      (fun key => if key = toLower c.Header then some n else m key)
    simp only [List.enumFrom_cons, List.foldl_cons, List.mem_cons, forall_eq_or_imp,
      List.length_cons]
    refine ⟨?_, ?_⟩
    · rw [ih.1]
      by_cases hk : key = toLower c.Header
      · simp [hk]
      · simp [hk, Ne.symm hk]
    · intro i hi
      rcases ih.2 i hi with h | h
      · by_cases hk : key = toLower c.Header
        · simp [hk] at h
          exact Or.inr ⟨by omega, by omega⟩
        · simp [hk] at h
          exact Or.inl h
      · exact Or.inr ⟨by omega, by omega⟩

theorem headerIndexMap_none_iff (toLower : String → String) (cols : List ColumnDef)
    (key : String) :
    headerIndexMap toLower cols key = none ↔ ∀ c ∈ cols, toLower c.Header ≠ key := by
  have h := (headerIndexMap_fold toLower key cols 0 (fun _ => none)).1
  simpa [headerIndexMap, List.enum] using h

theorem headerIndexMap_lt (toLower : String → String) (cols : List ColumnDef)
    (key : String) (i : Nat) (h : headerIndexMap toLower cols key = some i) :
    i < cols.length := by
  have h' := (headerIndexMap_fold toLower key cols 0 (fun _ => none)).2 i
    (by simpa [headerIndexMap, List.enum] using h)
  rcases h' with h' | h'
  · cases h'
  · omega

theorem less_eq_lessOn (toLower : String → String) (index : String → Option Nat)
    (a b : List String) :
    ∀ keys : List String,
      less toLower index keys a b =
        lessOn (keys.filterMap (fun header => index (toLower header))) a b
  | [] => rfl
  | k :: keys => by
    have ih := less_eq_lessOn toLower index a b keys
    unfold less
    cases hk : index (toLower k) with
    | none => simp [List.filterMap_cons, hk, ih]
    | some col =>
      simp only [List.filterMap_cons, hk, lessOn, ih]

theorem lessOn_true (a b : List String) :
    ∀ columns : List Nat, lessOn columns a b = some true → firstDiffLess columns a b
  | [], h => by simp [lessOn] at h
  | c :: columns, h => by
    unfold lessOn at h
    cases ha : a[c]? with
    | none => simp [ha] at h
    | some x =>
      cases hb : b[c]? with
      | none => simp [ha, hb] at h
      | some y =>
        simp only [ha, hb] at h
        by_cases hxy : x = y
        · simp [hxy] at h
          obtain ⟨before, col, after, u, v, hcols, hagree, hu, hv, huv, hlt⟩ :=
            lessOn_true a b columns h
          refine ⟨c :: before, col, after, u, v, by simp [hcols], ?_, hu, hv, huv, hlt⟩
          intro d hd
          rcases List.mem_cons.mp hd with hd | hd
          · rw [hd, ha, hb, hxy]
          · exact hagree d hd
        · simp [hxy] at h
          exact ⟨[], c, columns, x, y, rfl, by simp [agreeOn], ha, hb, hxy, h⟩

theorem lessOn_false (a b : List String) :
    ∀ columns : List Nat, lessOn columns a b = some false →
      agreeOn columns a b ∨ firstDiffLess columns b a
  | [], _ => Or.inl (by simp [agreeOn])
  | c :: columns, h => by
    unfold lessOn at h
    cases ha : a[c]? with
    | none => simp [ha] at h
    | some x =>
      cases hb : b[c]? with
      | none => simp [ha, hb] at h
      | some y =>
        simp only [ha, hb] at h
        by_cases hxy : x = y
        · simp [hxy] at h
          rcases lessOn_false a b columns h with hagree | hdiff
          · left
            intro d hd
            rcases List.mem_cons.mp hd with hd | hd
            · rw [hd, ha, hb, hxy]
            · exact hagree d hd
          · right
            obtain ⟨before, col, after, u, v, hcols, hagree, hu, hv, huv, hlt⟩ := hdiff
            refine ⟨c :: before, col, after, u, v, by simp [hcols], ?_, hu, hv, huv, hlt⟩
            intro d hd
            rcases List.mem_cons.mp hd with hd | hd
            · rw [hd, ha, hb, hxy]
            · exact hagree d hd
        · simp [hxy] at h
          exact Or.inr ⟨[], c, columns, y, x, rfl, by simp [agreeOn], hb, ha, Ne.symm hxy,
            stringLess_total hxy h⟩

theorem lessOn_isSome (a b : List String) :
    ∀ columns : List Nat, (∀ c ∈ columns, c < a.length ∧ c < b.length) →
      (lessOn columns a b).isSome = true
  | [], _ => rfl
  | c :: columns, h => by
    have hc := h c (List.mem_cons_self c columns)
    have ih := lessOn_isSome a b columns (fun d hd => h d (List.mem_cons_of_mem c hd))
    unfold lessOn
    rw [List.getElem?_eq_getElem hc.1, List.getElem?_eq_getElem hc.2]
    by_cases hxy : a[c] = b[c]
    · simp [hxy, ih]
    · simp [hxy]

theorem firstDiffLess_not_agree (columns : List Nat) (a b r : List String)
    (h : firstDiffLess columns a b) :
    ¬ (agreeOn columns r a ∧ agreeOn columns r b) := by
  obtain ⟨before, col, after, x, y, hcols, _, hx, hy, hxy, _⟩ := h
  intro hr
  have hmem : col ∈ columns := by simp [hcols]
  have h1 := hr.1 col hmem
  have h2 := hr.2 col hmem
  rw [hx] at h1
  rw [hy, h1] at h2
  exact hxy (Option.some.inj h2)

theorem effectiveKeys_lt (toLower : String → String) (cols : List ColumnDef)
    (keys : List String) :
    ∀ c ∈ effectiveKeys toLower cols keys, c < cols.length := by
  intro c hc
  obtain ⟨k, _, hk⟩ := List.mem_filterMap.mp hc
  exact headerIndexMap_lt toLower cols (toLower k) c hk

/-! ## Empty columns and emission -/

theorem columnEmpty_of_lt (i : Nat) :
    ∀ data : List (List String), (∀ row ∈ data, i < row.length) →
      columnEmpty i data = some (!hasData data i)
  | [], _ => rfl
  | row :: rest, h => by
    have hrow := h row (List.mem_cons_self row rest)
    have ih := columnEmpty_of_lt i rest (fun r hr => h r (List.mem_cons_of_mem row hr))
    unfold columnEmpty
    rw [List.getElem?_eq_getElem hrow]
    by_cases hcell : row[i] = ""
    · simp [hcell, ih, hasData, List.getElem?_eq_getElem hrow]
    · simp [hcell, hasData, List.getElem?_eq_getElem hrow]

theorem emptyColumnsFrom_of_lt (data : List (List String)) :
    ∀ indices : List Nat, (∀ i ∈ indices, ∀ row ∈ data, i < row.length) →
      emptyColumnsFrom data indices = some (indices.map (fun i => !hasData data i))
  | [], _ => rfl
  | i :: indices, h => by
    have hi := columnEmpty_of_lt i data (h i (List.mem_cons_self i indices))
    have ih := emptyColumnsFrom_of_lt data indices
      (fun j hj => h j (List.mem_cons_of_mem i hj))
    simp [emptyColumnsFrom, hi, ih]

theorem emptyColumns_of_wf (columnDefs : List ColumnDef) (data : List (List String))
    (hwf : ∀ row ∈ data, row.length = columnDefs.length) :
    emptyColumns columnDefs data =
      some ((List.range columnDefs.length).map (fun i => !hasData data i)) := by
  unfold emptyColumns
  apply emptyColumnsFrom_of_lt
  intro i hi row hrow
  rw [hwf row hrow]
  exact List.mem_range.mp hi

theorem emitCells_eq :
    ∀ (empty : List Bool) (row : List String), row.length = empty.length →
      emitCells empty row =
        some (cellsAt ((List.range row.length).filter (fun i => empty[i]? == some false)) row)
  | _, [], _ => by simp [emitCells, cellsAt]
  | [], _ :: _, h => by simp at h
  | e :: es, c :: cs, h => by
    have ih := emitCells_eq es cs (by simpa using h)
    unfold emitCells
    rw [ih, List.length_cons, List.range_succ_eq_map, List.filter_cons, List.filter_map]
    have hshift : ((fun i => (e :: es)[i]? == some false) ∘ Nat.succ) =
        (fun i => es[i]? == some false) := by
      funext i
      simp
    rw [hshift]
    cases e <;> simp [cellsAt, List.filterMap_map, Function.comp_def]

theorem emitCells_of_wf (columnDefs : List ColumnDef) (data : List (List String))
    (row : List String) (hrow : row.length = columnDefs.length) :
    emitCells ((List.range columnDefs.length).map (fun i => !hasData data i)) row =
      some (cellsAt (keptColumns columnDefs data) row) := by
  rw [emitCells_eq _ row (by simp [hrow]), hrow]
  unfold keptColumns
  congr 2
  apply List.filter_congr
  intro i hi
  have hlt := List.mem_range.mp hi
  simp [List.getElem?_range hlt]

theorem emitRows_of_wf (columnDefs : List ColumnDef) (data : List (List String)) :
    ∀ rows : List (List String), (∀ row ∈ rows, row.length = columnDefs.length) →
      emitRows ((List.range columnDefs.length).map (fun i => !hasData data i)) rows =
        some (rows.map (cellsAt (keptColumns columnDefs data)))
  | [], _ => rfl
  | row :: rest, h => by
    have hrow := emitCells_of_wf columnDefs data row (h row (List.mem_cons_self row rest))
    have ih := emitRows_of_wf columnDefs data rest
      (fun r hr => h r (List.mem_cons_of_mem row hr))
    simp [emitRows, hrow, ih]

theorem mem_keptColumns_iff (columnDefs : List ColumnDef) (data : List (List String))
    (i : Nat) :
    i ∈ keptColumns columnDefs data ↔
      i < columnDefs.length ∧ ∃ row ∈ data, ∃ cell, row[i]? = some cell ∧ cell ≠ "" := by
  unfold keptColumns hasData
  rw [List.mem_filter, List.mem_range, List.any_eq_true]
  apply and_congr_right
  intro _
  constructor
  · rintro ⟨row, hrow, hcell⟩
    cases hget : row[i]? with
    | none => simp [hget] at hcell
    | some cell =>
      simp [hget] at hcell
      exact ⟨row, hrow, cell, hget, hcell⟩
  · rintro ⟨row, hrow, cell, hget, hcell⟩
    exact ⟨row, hrow, by simp [hget, hcell]⟩

/-! ## The sort step of PrintTable -/

theorem sortData_eq (toLower : String → String) (columnDefs : List ColumnDef)
    (data : List (List String)) (sortByHeaders : List String) :
    sortData toLower columnDefs data sortByHeaders =
      if effectiveKeys toLower columnDefs sortByHeaders = [] then some data
      else insertionLoop (lessOn (effectiveKeys toLower columnDefs sortByHeaders)) [] data := by
  have hless : less toLower (headerIndexMap toLower columnDefs) sortByHeaders =
      lessOn (effectiveKeys toLower columnDefs sortByHeaders) := by
    funext a b
    exact less_eq_lessOn toLower (headerIndexMap toLower columnDefs) a b sortByHeaders
  unfold sortData SliceStable
  rw [hless]
  by_cases heff : effectiveKeys toLower columnDefs sortByHeaders = []
  · rw [if_pos heff]
    by_cases hlen : sortByHeaders.length > 0
    · rw [if_pos hlen, heff]
      simpa using insertionLoop_of_never (lessOn []) (fun _ _ => rfl) data []
    · rw [if_neg hlen]
  · rw [if_neg heff]
    have hlen : sortByHeaders.length > 0 := by
      cases sortByHeaders with
      | nil => exact absurd rfl heff
      | cons k ks => simp
    rw [if_pos hlen]

theorem chain_of_forall {α : Type} (R : α → α → Prop) (h : ∀ a b, R a b) :
    ∀ l : List α, List.Chain' R l
  | [] => List.chain'_nil
  | [a] => List.chain'_singleton a
  | a :: b :: l => List.chain'_cons.mpr ⟨h a b, chain_of_forall R h (b :: l)⟩

/-- What the sort step guarantees whenever it ends without a panic. -/
theorem sortData_spec (toLower : String → String) (columnDefs : List ColumnDef)
    (data sorted : List (List String)) (sortByHeaders : List String)
    (h : sortData toLower columnDefs data sortByHeaders = some sorted) :
    sorted.Perm data ∧
    List.Chain' (inOrder (effectiveKeys toLower columnDefs sortByHeaders)) sorted ∧
    (∀ r : List String,
      sorted.filter (fun x => decide (agreeOn (effectiveKeys toLower columnDefs sortByHeaders) r x)) =
        data.filter (fun x => decide (agreeOn (effectiveKeys toLower columnDefs sortByHeaders) r x))) ∧
    (effectiveKeys toLower columnDefs sortByHeaders = [] → sorted = data) := by
  rw [sortData_eq] at h
  by_cases heff : effectiveKeys toLower columnDefs sortByHeaders = []
  · rw [if_pos heff] at h
    injection h with h
    subst h
    refine ⟨List.Perm.refl _, ?_, fun _ => rfl, fun _ => rfl⟩
    apply chain_of_forall
    intro a b
    left
    rw [heff]
    simp [agreeOn]
  · rw [if_neg heff] at h
    refine ⟨?_, ?_, ?_, fun h0 => absurd h0 heff⟩
    · simpa using insertionLoop_perm _ data [] sorted h
    · apply insertionLoop_chain _ (inOrder (effectiveKeys toLower columnDefs sortByHeaders))
        ?_ ?_ data [] sorted h List.chain'_nil
      · intro a b hab
        exact Or.inr (lessOn_true a b _ hab)
      · intro a b hab
        rcases lessOn_false a b _ hab with hagree | hdiff
        · exact Or.inl (fun c hc => (hagree c hc).symm)
        · exact Or.inr hdiff
    · intro r
      have hf := insertionLoop_filter _
        (fun x => decide (agreeOn (effectiveKeys toLower columnDefs sortByHeaders) r x))
        ?_ data [] sorted h
      · simpa using hf
      · intro a b hab
        have hno := firstDiffLess_not_agree _ a b r (lessOn_true a b _ hab)
        simpa using hno

/-- The sort step ends without a panic when every row has as many cells as
the schema has columns. -/
theorem sortData_isSome (toLower : String → String) (columnDefs : List ColumnDef)
    (data : List (List String)) (sortByHeaders : List String)
    (hwf : ∀ row ∈ data, row.length = columnDefs.length) :
    (sortData toLower columnDefs data sortByHeaders).isSome = true := by
  rw [sortData_eq]
  by_cases heff : effectiveKeys toLower columnDefs sortByHeaders = []
  · rw [if_pos heff]
    rfl
  · rw [if_neg heff]
    apply insertionLoop_isSome
    intro a ha b hb
    apply lessOn_isSome
    intro c hc
    have hlt := effectiveKeys_lt toLower columnDefs sortByHeaders c hc
    rw [hwf a (by simpa using ha), hwf b (by simpa using hb)]
    exact ⟨hlt, hlt⟩

/-- PrintTable on rows that fit the schema: it ends without a panic, the
header line holds the headers of the kept columns and each body line the cells
of one sorted row at the kept columns. -/
theorem PrintTable_of_wf (toLower : String → String) (columnDefs : List ColumnDef)
    (data : List (List String)) (sortByHeaders : List String)
    (hwf : ∀ row ∈ data, row.length = columnDefs.length) :
    ∃ sorted, sortData toLower columnDefs data sortByHeaders = some sorted ∧
      PrintTable toLower columnDefs data sortByHeaders =
        some { header := cellsAt (keptColumns columnDefs data) (columnDefs.map ColumnDef.Header),
               body := sorted.map (cellsAt (keptColumns columnDefs data)) } := by
  obtain ⟨sorted, hsorted⟩ :=
    Option.isSome_iff_exists.mp (sortData_isSome toLower columnDefs data sortByHeaders hwf)
  have hperm := (sortData_spec toLower columnDefs data sorted sortByHeaders hsorted).1
  have hwf' : ∀ row ∈ sorted, row.length = columnDefs.length :=
    fun row hrow => hwf row (hperm.mem_iff.mp hrow)
  refine ⟨sorted, hsorted, ?_⟩
  unfold PrintTable
  simp only [emptyColumns_of_wf columnDefs data hwf, hsorted,
    emitCells_of_wf columnDefs data (columnDefs.map ColumnDef.Header) (by simp),
    emitRows_of_wf columnDefs data sorted hwf']

/-- PrintTable that ended without a panic went through its three steps. -/
theorem PrintTable_some (toLower : String → String) (columnDefs : List ColumnDef)
    (data : List (List String)) (sortByHeaders : List String) (out : Rendered)
    (h : PrintTable toLower columnDefs data sortByHeaders = some out) :
    ∃ empty sorted, emptyColumns columnDefs data = some empty ∧
      sortData toLower columnDefs data sortByHeaders = some sorted ∧
      emitCells empty (columnDefs.map ColumnDef.Header) = some out.header ∧
      emitRows empty sorted = some out.body := by
  unfold PrintTable at h
  cases hempty : emptyColumns columnDefs data with
  | none => simp [hempty] at h
  | some empty =>
    cases hsorted : sortData toLower columnDefs data sortByHeaders with
    | none => simp [hempty, hsorted] at h
    | some sorted =>
      cases hheader : emitCells empty (columnDefs.map ColumnDef.Header) with
      | none => simp [hempty, hsorted, hheader] at h
      | some header =>
        cases hbody : emitRows empty sorted with
        | none => simp [hempty, hsorted, hheader, hbody] at h
        | some body =>
          simp [hempty, hsorted, hheader, hbody] at h
          subst h
          exact ⟨empty, sorted, rfl, rfl, hheader, hbody⟩

theorem effectiveKeys_filter (toLower : String → String) (columnDefs : List ColumnDef) :
    ∀ keys : List String,
      effectiveKeys toLower columnDefs
          (keys.filter (fun k => columnDefs.any (fun c => toLower c.Header == toLower k))) =
        effectiveKeys toLower columnDefs keys
  | [] => rfl
  | k :: keys => by
    have ih := effectiveKeys_filter toLower columnDefs keys
    unfold effectiveKeys at ih ⊢
    by_cases hk : columnDefs.any (fun c => toLower c.Header == toLower k) = true
    · rw [List.filter_cons, if_pos hk, List.filterMap_cons, List.filterMap_cons, ih]
    · have hnone : headerIndexMap toLower columnDefs (toLower k) = none := by
        rw [headerIndexMap_none_iff]
        intro c hc heq
        exact hk (List.any_eq_true.mpr ⟨c, hc, by simp [heq]⟩)
      rw [List.filter_cons, if_neg hk, List.filterMap_cons, hnone, ih]

/-! ## The renderer: main results -/

/-- C4: when every row has as many cells as the schema has columns,
PrintTable ends normally, its body lines are the rows of the sorted slice (cut
down to the kept columns), the sorted slice is a permutation of the input
rows, and every two neighbouring rows of it either agree on all effective sort
key columns or, at the first effective key where they differ, the earlier row
has the lexicographically smaller cell. -/
theorem PrintTable_sorted (toLower : String → String) (columnDefs : List ColumnDef)
    (data : List (List String)) (sortByHeaders : List String)
    (hwf : ∀ row ∈ data, row.length = columnDefs.length) :
    ∃ sorted out, PrintTable toLower columnDefs data sortByHeaders = some out ∧
      sortData toLower columnDefs data sortByHeaders = some sorted ∧
      out.body = sorted.map (cellsAt (keptColumns columnDefs data)) ∧
      sorted.Perm data ∧
      List.Chain' (inOrder (effectiveKeys toLower columnDefs sortByHeaders)) sorted := by
  obtain ⟨sorted, hsorted, hout⟩ := PrintTable_of_wf toLower columnDefs data sortByHeaders hwf
  have hspec := sortData_spec toLower columnDefs data sorted sortByHeaders hsorted
  exact ⟨sorted, _, hout, hsorted, rfl, hspec.1, hspec.2.1⟩

/-- Witness of C4: rows b/2 and a/1 under the key "name". -/
theorem PrintTable_sorted_witness :
    PrintTable asciiToLower nameCountColumns [["b", "2"], ["a", "1"]] ["name"] =
      some { header := ["NAME", "COUNT"], body := [["a", "1"], ["b", "2"]] } ∧
    ∃ sorted out, PrintTable asciiToLower nameCountColumns [["b", "2"], ["a", "1"]] ["name"] =
        some out ∧
      sortData asciiToLower nameCountColumns [["b", "2"], ["a", "1"]] ["name"] = some sorted ∧
      out.body = sorted.map (cellsAt (keptColumns nameCountColumns [["b", "2"], ["a", "1"]])) ∧
      sorted.Perm [["b", "2"], ["a", "1"]] ∧
      List.Chain' (inOrder (effectiveKeys asciiToLower nameCountColumns ["name"])) sorted :=
  ⟨by decide,
   PrintTable_sorted asciiToLower nameCountColumns [["b", "2"], ["a", "1"]] ["name"]
     (by decide)⟩

/-- C5: whenever PrintTable ends normally, its body lines are the lines of the
sorted slice, and the sort is stable: for every row r, the rows that agree
with r on all effective sort key columns come in the same order in the sorted
slice as in the input; two such rows are never swapped; with no effective key
the input order is kept. On rows that fit the schema PrintTable does end
normally. -/
theorem PrintTable_stable (toLower : String → String) (columnDefs : List ColumnDef)
    (data : List (List String)) (sortByHeaders : List String) :
    (∀ out, PrintTable toLower columnDefs data sortByHeaders = some out →
      ∃ empty sorted, emptyColumns columnDefs data = some empty ∧
        sortData toLower columnDefs data sortByHeaders = some sorted ∧
        emitRows empty sorted = some out.body ∧
        (∀ r : List String,
          sorted.filter
              (fun x => decide (agreeOn (effectiveKeys toLower columnDefs sortByHeaders) r x)) =
            data.filter
              (fun x => decide (agreeOn (effectiveKeys toLower columnDefs sortByHeaders) r x))) ∧
        (∀ a b : List String, agreeOn (effectiveKeys toLower columnDefs sortByHeaders) a b →
          [a, b].Sublist data → [a, b].Sublist sorted) ∧
        (effectiveKeys toLower columnDefs sortByHeaders = [] → sorted = data)) ∧
    ((∀ row ∈ data, row.length = columnDefs.length) →
      (PrintTable toLower columnDefs data sortByHeaders).isSome = true) := by
  refine ⟨fun out hout => ?_, fun hwf => ?_⟩
  · obtain ⟨empty, sorted, hempty, hsorted, _, hbody⟩ :=
      PrintTable_some toLower columnDefs data sortByHeaders out hout
    have hspec := sortData_spec toLower columnDefs data sorted sortByHeaders hsorted
    refine ⟨empty, sorted, hempty, hsorted, hbody, hspec.2.2.1, ?_, hspec.2.2.2⟩
    intro a b hab hsub
    have hfilter := hspec.2.2.1 a
    have haa : agreeOn (effectiveKeys toLower columnDefs sortByHeaders) a a := fun _ _ => rfl
    have h1 := hsub.filter
      (fun x => decide (agreeOn (effectiveKeys toLower columnDefs sortByHeaders) a x))
    rw [← hfilter] at h1
    have h2 : [a, b].filter
        (fun x => decide (agreeOn (effectiveKeys toLower columnDefs sortByHeaders) a x)) =
        [a, b] := by
      simp [List.filter_cons, haa, hab]
    rw [h2] at h1
    exact h1.trans (List.filter_sublist _)
  · obtain ⟨sorted, _, hout⟩ := PrintTable_of_wf toLower columnDefs data sortByHeaders hwf
    rw [hout]
    rfl

/-- Witness of C5: two rows named a keep their input order under the key
"name". -/
theorem PrintTable_stable_witness :
    PrintTable asciiToLower nameCountColumns [["b", "2"], ["a", "1"], ["a", "0"]] ["name"] =
      some { header := ["NAME", "COUNT"], body := [["a", "1"], ["a", "0"], ["b", "2"]] } ∧
    (PrintTable asciiToLower nameCountColumns [["b", "2"], ["a", "1"], ["a", "0"]]
      ["name"]).isSome = true :=
  ⟨by decide,
   (PrintTable_stable asciiToLower nameCountColumns [["b", "2"], ["a", "1"], ["a", "0"]]
     ["name"]).2 (by decide)⟩

/-- C6: when every row has as many cells as the schema has columns (the empty
row list included), column index i is kept exactly when some row has a
non-empty cell at i; the header line holds the headers at the kept indices, in
schema order, and every body line holds the cells of one row of the sorted
slice at the kept indices, in schema order. -/
theorem PrintTable_elides_empty_columns (toLower : String → String)
    (columnDefs : List ColumnDef) (data : List (List String)) (sortByHeaders : List String)
    (hwf : ∀ row ∈ data, row.length = columnDefs.length) :
    ∃ sorted out, PrintTable toLower columnDefs data sortByHeaders = some out ∧
      sortData toLower columnDefs data sortByHeaders = some sorted ∧ sorted.Perm data ∧
      out.header = cellsAt (keptColumns columnDefs data) (columnDefs.map ColumnDef.Header) ∧
      out.body = sorted.map (cellsAt (keptColumns columnDefs data)) ∧
      (∀ i, i ∈ keptColumns columnDefs data ↔
        i < columnDefs.length ∧ ∃ row ∈ data, ∃ cell, row[i]? = some cell ∧ cell ≠ "") := by
  obtain ⟨sorted, hsorted, hout⟩ := PrintTable_of_wf toLower columnDefs data sortByHeaders hwf
  have hspec := sortData_spec toLower columnDefs data sorted sortByHeaders hsorted
  exact ⟨sorted, _, hout, hsorted, hspec.1, rfl, rfl, mem_keptColumns_iff columnDefs data⟩

/-- Witness of C6: no row has a password, so the PASSWORD header and cells are
left out. -/
theorem PrintTable_elides_empty_columns_witness :
    PrintTable asciiToLower passwordColumns [["b", "2", ""], ["a", "1", ""]] [] =
      some { header := ["NAME", "COUNT"], body := [["b", "2"], ["a", "1"]] } ∧
    ∃ sorted out, PrintTable asciiToLower passwordColumns [["b", "2", ""], ["a", "1", ""]] [] =
        some out ∧
      sortData asciiToLower passwordColumns [["b", "2", ""], ["a", "1", ""]] [] = some sorted ∧
      sorted.Perm [["b", "2", ""], ["a", "1", ""]] ∧
      out.header = cellsAt (keptColumns passwordColumns [["b", "2", ""], ["a", "1", ""]])
        (passwordColumns.map ColumnDef.Header) ∧
      out.body = sorted.map (cellsAt (keptColumns passwordColumns [["b", "2", ""], ["a", "1", ""]])) ∧
      (∀ i, i ∈ keptColumns passwordColumns [["b", "2", ""], ["a", "1", ""]] ↔
        i < passwordColumns.length ∧
          ∃ row ∈ [["b", "2", ""], ["a", "1", ""]], ∃ cell, row[i]? = some cell ∧ cell ≠ "") :=
  ⟨by decide,
   PrintTable_elides_empty_columns asciiToLower passwordColumns
     [["b", "2", ""], ["a", "1", ""]] [] (by decide)⟩

/-- C8: the output of PrintTable is the same when every sort key that matches
no header (after lower-casing both) is removed from the key list; and when no
key of the list matches a header, the sort step ends normally and leaves the
rows in their input order. -/
theorem PrintTable_ignores_unresolved_keys (toLower : String → String)
    (columnDefs : List ColumnDef) (data : List (List String)) (sortByHeaders : List String) :
    PrintTable toLower columnDefs data sortByHeaders =
      PrintTable toLower columnDefs data
        (sortByHeaders.filter
          (fun k => columnDefs.any (fun c => toLower c.Header == toLower k))) ∧
    ((∀ k ∈ sortByHeaders, ∀ c ∈ columnDefs, toLower c.Header ≠ toLower k) →
      sortData toLower columnDefs data sortByHeaders = some data ∧
      PrintTable toLower columnDefs data sortByHeaders =
        PrintTable toLower columnDefs data []) := by
  have hsort : sortData toLower columnDefs data sortByHeaders =
      sortData toLower columnDefs data
        (sortByHeaders.filter
          (fun k => columnDefs.any (fun c => toLower c.Header == toLower k))) := by
    rw [sortData_eq, sortData_eq, effectiveKeys_filter]
  have hprint : PrintTable toLower columnDefs data sortByHeaders =
      PrintTable toLower columnDefs data
        (sortByHeaders.filter
          (fun k => columnDefs.any (fun c => toLower c.Header == toLower k))) := by
    unfold PrintTable
    rw [hsort]
  refine ⟨hprint, fun hnone => ?_⟩
  have hfilter : sortByHeaders.filter
      (fun k => columnDefs.any (fun c => toLower c.Header == toLower k)) = [] := by
    rw [List.filter_eq_nil_iff]
    intro k hk hany
    obtain ⟨c, hc, heq⟩ := List.any_eq_true.mp hany
    exact hnone k hk c hc (by simpa using heq)
  rw [hfilter] at hsort hprint
  exact ⟨by rw [hsort]; rfl, hprint⟩

/-- Witness of C8: the single key "bogus-column" matches no header. -/
theorem PrintTable_ignores_unresolved_keys_witness :
    sortData asciiToLower nameCountColumns [["b", "2"], ["a", "1"]] ["bogus-column"] =
      some [["b", "2"], ["a", "1"]] ∧
    PrintTable asciiToLower nameCountColumns [["b", "2"], ["a", "1"]] ["bogus-column"] =
      PrintTable asciiToLower nameCountColumns [["b", "2"], ["a", "1"]] [] :=
  (PrintTable_ignores_unresolved_keys asciiToLower nameCountColumns [["b", "2"], ["a", "1"]]
    ["bogus-column"]).2 (by decide)

/-! ## The shard predicates, one by one -/

/-- C13: with no state flag set includeShardByState returns true; with at
least one set it returns true exactly when the state of the record is STARTED,
RELOCATING, INITIALIZING or UNASSIGNED and the flag of that same state is
set. -/
theorem includeShardByState_spec (f : Flags) (shard : Shard) :
    ((f.flagStarted = false ∧ f.flagRelocating = false ∧ f.flagInitializing = false ∧
        f.flagUnassigned = false) → includeShardByState f shard = true) ∧
    ((f.flagStarted = true ∨ f.flagRelocating = true ∨ f.flagInitializing = true ∨
        f.flagUnassigned = true) →
      (includeShardByState f shard = true ↔
        ((shard.State = "STARTED" ∧ f.flagStarted = true) ∨
         (shard.State = "RELOCATING" ∧ f.flagRelocating = true) ∨
         (shard.State = "INITIALIZING" ∧ f.flagInitializing = true) ∨
         (shard.State = "UNASSIGNED" ∧ f.flagUnassigned = true)))) := by
  unfold includeShardByState ShardStateStarted ShardStateRelocating ShardStateInitializing
    ShardStateUnassigned
  cases f.flagStarted <;> cases f.flagRelocating <;> cases f.flagInitializing <;>
    cases f.flagUnassigned <;> simp

/-- Witness of C13: a started and an unassigned shard under --started. -/
theorem includeShardByState_spec_witness :
    includeShardByState { defaultFlags with flagStarted := true }
      (mkShard "0" "p" "STARTED" "n1") = true ∧
    includeShardByState { defaultFlags with flagStarted := true }
      (mkShard "1" "r" "UNASSIGNED" "") = false ∧
    includeShardByState defaultFlags (mkShard "1" "r" "UNASSIGNED" "") = true :=
  ⟨((includeShardByState_spec { defaultFlags with flagStarted := true }
      (mkShard "0" "p" "STARTED" "n1")).2 (by decide)).mpr (by decide),
   by decide,
   (includeShardByState_spec defaultFlags (mkShard "1" "r" "UNASSIGNED" "")).1 (by decide)⟩

/-- C14: for a shard whose shard field parses as the integer n,
includeShardByNumber returns true when flagShard is -1 (the default that init
registers), and otherwise returns true exactly when n equals flagShard; it
does not end the process. -/
theorem includeShardByNumber_spec (f : Flags) (shard : Shard) (n : Int)
    (h : Atoi shard.Shard = some n) :
    (f.flagShard = -1 → includeShardByNumber f shard = Except.ok true) ∧
    (f.flagShard ≠ -1 → (includeShardByNumber f shard = Except.ok true ↔ n = f.flagShard)) ∧
    (∃ b, includeShardByNumber f shard = Except.ok b) ∧
    defaultFlags.flagShard = -1 := by
  have hnum : includeShardByNumber f shard =
      Except.ok (f.flagShard == -1 || f.flagShard == n) := by
    simp [includeShardByNumber, h]
  refine ⟨fun h1 => ?_, fun h1 => ?_, ⟨_, hnum⟩, rfl⟩
  · rw [hnum, h1]
    rfl
  · rw [hnum]
    constructor
    · intro h2
      injection h2 with h2
      simp [h1] at h2
      exact h2.symm
    · intro h2
      simp [h2]

/-- Witness of C14: shard fields "5" and "3" under --shard 5. -/
theorem includeShardByNumber_spec_witness :
    Atoi (mkShard "5" "p" "STARTED" "n1").Shard = some 5 ∧
    includeShardByNumber { defaultFlags with flagShard := 5 } (mkShard "5" "p" "STARTED" "n1") =
      Except.ok true ∧
    includeShardByNumber { defaultFlags with flagShard := 5 } (mkShard "3" "p" "STARTED" "n1") =
      Except.ok false :=
  ⟨by decide,
   ((includeShardByNumber_spec { defaultFlags with flagShard := 5 }
      (mkShard "5" "p" "STARTED" "n1") 5 (by decide)).2.1 (by decide)).mpr rfl,
   by decide⟩

/-- C15: includeShardByNode returns true when flagNode is the empty string,
and otherwise returns true exactly when the Node field of the record is the
string flagNode. -/
theorem includeShardByNode_spec (f : Flags) (shard : Shard) :
    (f.flagNode = "" → includeShardByNode f shard = true) ∧
    (f.flagNode ≠ "" → (includeShardByNode f shard = true ↔ shard.Node = f.flagNode)) := by
  unfold includeShardByNode
  constructor
  · intro h
    simp [h]
  · intro h
    simp [h]

/-- Witness of C15: nodes n1 and n2 under --node n1. -/
theorem includeShardByNode_spec_witness :
    includeShardByNode { defaultFlags with flagNode := "n1" }
      (mkShard "0" "p" "STARTED" "n1") = true ∧
    includeShardByNode { defaultFlags with flagNode := "n1" }
      (mkShard "0" "p" "STARTED" "n2") = false ∧
    includeShardByNode defaultFlags (mkShard "0" "p" "STARTED" "n2") = true :=
  ⟨((includeShardByNode_spec { defaultFlags with flagNode := "n1" }
      (mkShard "0" "p" "STARTED" "n1")).2 (by decide)).mpr rfl,
   by decide,
   (includeShardByNode_spec defaultFlags (mkShard "0" "p" "STARTED" "n2")).1 rfl⟩

/-! ## The dispatch -/

theorem unknownEntityError_ne_panicError (entity : String) :
    unknownEntityError entity ≠ panicError := by
  intro h
  have hdata := congrArg String.data h
  simp [unknownEntityError, panicError] at hdata

/-- The case that the switch of getCmd.Run takes, token by token, and the
default case. -/
theorem selectPipeline_cases (es : Fetch) (toLower : String → String) (f : Flags)
    (entity : String) :
    (selectPipeline entity = some Pipeline.nodes ↔ (entity = "node" ∨ entity = "nodes")) ∧
    (selectPipeline entity = some Pipeline.indices ↔ (entity = "index" ∨ entity = "indices")) ∧
    (selectPipeline entity = some Pipeline.shards ↔ (entity = "shard" ∨ entity = "shards")) ∧
    (selectPipeline entity = some Pipeline.aliases ↔ (entity = "alias" ∨ entity = "aliases")) ∧
    (selectPipeline entity = some Pipeline.tasks ↔ (entity = "task" ∨ entity = "tasks")) ∧
    (selectPipeline entity = none ↔
      entity ∉ ["node", "nodes", "index", "indices", "shard", "shards", "alias", "aliases",
        "task", "tasks"]) ∧
    (∀ p, selectPipeline entity = some p →
      getCmdRun es toLower f entity = runPipeline es toLower f p) ∧
    (selectPipeline entity = none →
      getCmdRun es toLower f entity = Except.error (unknownEntityError entity) ∧
      exitStatus (getCmdRun es toLower f entity) = 1) ∧
    selectPipeline "cluster" = none := by
  refine ⟨?_, ?_, ?_, ?_, ?_, ?_, ?_, ?_, by decide⟩
  · unfold selectPipeline EntityNode EntityNodes EntityIndex EntityIndices EntityShard
      EntityShards EntityAlias EntityAliases EntityTask EntityTasks
    split_ifs <;> simp_all
  · unfold selectPipeline EntityNode EntityNodes EntityIndex EntityIndices EntityShard
      EntityShards EntityAlias EntityAliases EntityTask EntityTasks
    split_ifs with h1 h2 <;> simp_all
    rcases h1 with h1 | h1 <;> simp [h1]
  · unfold selectPipeline EntityNode EntityNodes EntityIndex EntityIndices EntityShard
      EntityShards EntityAlias EntityAliases EntityTask EntityTasks
    split_ifs with h1 h2 h3 <;> simp_all
    · rcases h1 with h1 | h1 <;> simp [h1]
    · rcases h2 with h2 | h2 <;> simp [h2]
  · unfold selectPipeline EntityNode EntityNodes EntityIndex EntityIndices EntityShard
      EntityShards EntityAlias EntityAliases EntityTask EntityTasks
    split_ifs with h1 h2 h3 h4 <;> simp_all
    · rcases h1 with h1 | h1 <;> simp [h1]
    · rcases h2 with h2 | h2 <;> simp [h2]
    · rcases h3 with h3 | h3 <;> simp [h3]
  · unfold selectPipeline EntityNode EntityNodes EntityIndex EntityIndices EntityShard
      EntityShards EntityAlias EntityAliases EntityTask EntityTasks
    split_ifs with h1 h2 h3 h4 h5 <;> simp_all
    · rcases h1 with h1 | h1 <;> simp [h1]
    · rcases h2 with h2 | h2 <;> simp [h2]
    · rcases h3 with h3 | h3 <;> simp [h3]
    · rcases h4 with h4 | h4 <;> simp [h4]
  · unfold selectPipeline EntityNode EntityNodes EntityIndex EntityIndices EntityShard
      EntityShards EntityAlias EntityAliases EntityTask EntityTasks
    split_ifs with h1 h2 h3 h4 h5 <;> simp_all <;> tauto
  · intro p hp
    simp [getCmdRun, hp]
  · intro hnone
    have hrun : getCmdRun es toLower f entity = Except.error (unknownEntityError entity) := by
      simp [getCmdRun, hnone]
    refine ⟨hrun, ?_⟩
    rw [hrun]
    simp [exitStatus, unknownEntityError_ne_panicError]

theorem getCmdRun_of_select (es : Fetch) (toLower : String → String) (f : Flags)
    (entity : String) (p : Pipeline) (h : selectPipeline entity = some p) :
    getCmdRun es toLower f entity = runPipeline es toLower f p := by
  simp [getCmdRun, h]

/-- C12: the switch of getCmd.Run takes the node case exactly for "node" and
"nodes", the index case for "index" and "indices", the shard case for "shard"
and "shards", the alias case for "alias" and "aliases", the task case for
"task" and "tasks", and the run is then the handler of that one case: the
fetch of that entity kind (a failed fetch ends the run with "Failed to
retrieve ...") followed by handleNodeLogic, handleIndexLogic,
handleShardLogic, handleAliasLogic or handleTaskLogic. For every other string,
"cluster" among them, no case is taken and the run ends with the line
"Unknown entity: ..." and exit status 1. -/
theorem getCmdRun_dispatch (es : Fetch) (toLower : String → String) (f : Flags)
    (entity : String) :
    ((selectPipeline entity = some Pipeline.nodes ↔ (entity = "node" ∨ entity = "nodes")) ∧
     (selectPipeline entity = some Pipeline.indices ↔
       (entity = "index" ∨ entity = "indices")) ∧
     (selectPipeline entity = some Pipeline.shards ↔ (entity = "shard" ∨ entity = "shards")) ∧
     (selectPipeline entity = some Pipeline.aliases ↔
       (entity = "alias" ∨ entity = "aliases")) ∧
     (selectPipeline entity = some Pipeline.tasks ↔ (entity = "task" ∨ entity = "tasks")) ∧
     (selectPipeline entity = none ↔
       entity ∉ ["node", "nodes", "index", "indices", "shard", "shards", "alias", "aliases",
         "task", "tasks"]) ∧
     (∀ p, selectPipeline entity = some p →
       getCmdRun es toLower f entity = runPipeline es toLower f p) ∧
     (selectPipeline entity = none →
       getCmdRun es toLower f entity = Except.error (unknownEntityError entity) ∧
       exitStatus (getCmdRun es toLower f entity) = 1) ∧
     selectPipeline "cluster" = none) ∧
    ((entity = "node" ∨ entity = "nodes") →
      getCmdRun es toLower f entity =
        afterFetch "nodes" es.GetNodes (handleNodeLogic toLower f)) ∧
    ((entity = "index" ∨ entity = "indices") →
      getCmdRun es toLower f entity =
        afterFetch "indices" (es.GetIndices f.flagIndex) (handleIndexLogic toLower f)) ∧
    ((entity = "shard" ∨ entity = "shards") →
      getCmdRun es toLower f entity =
        afterFetch "shards" (es.GetShards f.flagIndex) (handleShardLogic toLower f)) ∧
    ((entity = "alias" ∨ entity = "aliases") →
      getCmdRun es toLower f entity =
        afterFetch "aliases" (es.GetAliases f.flagIndex) (handleAliasLogic toLower f)) ∧
    ((entity = "task" ∨ entity = "tasks") →
      getCmdRun es toLower f entity =
        afterFetch "tasks" (es.GetTasks f.flagActions) (handleTaskLogic toLower f)) ∧
    (∀ (α : Type) (what err : String) (rest : α → Except String Rendered),
      afterFetch what (Except.error err) rest =
        Except.error ("Failed to retrieve " ++ what ++ ": " ++ err)) ∧
    (∀ (α : Type) (what : String) (records : α) (rest : α → Except String Rendered),
      afterFetch what (Except.ok records) rest = rest records) := by
  have hcases := selectPipeline_cases es toLower f entity
  refine ⟨hcases, ?_, ?_, ?_, ?_, ?_, fun _ _ _ _ => rfl, fun _ _ _ _ => rfl⟩
  · intro h
    rw [getCmdRun_of_select es toLower f entity Pipeline.nodes (hcases.1.mpr h)]
    rfl
  · intro h
    rw [getCmdRun_of_select es toLower f entity Pipeline.indices (hcases.2.1.mpr h)]
    rfl
  · intro h
    rw [getCmdRun_of_select es toLower f entity Pipeline.shards (hcases.2.2.1.mpr h)]
    rfl
  · intro h
    rw [getCmdRun_of_select es toLower f entity Pipeline.aliases (hcases.2.2.2.1.mpr h)]
    rfl
  · intro h
    rw [getCmdRun_of_select es toLower f entity Pipeline.tasks (hcases.2.2.2.2.1.mpr h)]
    rfl

/-- Witness of C12: on a sample cluster, "shards" runs the shard handler on
the fetched shards, "indices" ends with the fetch error, "aliases" runs the
alias handler and "cluster" is an unknown entity. -/
theorem getCmdRun_dispatch_witness :
    getCmdRun sampleFetch asciiToLower defaultFlags "shards" =
      afterFetch "shards" (sampleFetch.GetShards defaultFlags.flagIndex)
        (handleShardLogic asciiToLower defaultFlags) ∧
    getCmdRun sampleFetch asciiToLower defaultFlags "shards" =
      Except.ok { header := ["INDEX", "SHARD", "PRI-REP", "STATE", "NODE"],
                  body := [["a", "0", "primary", "STARTED", "n1"],
                           ["a", "1", "replica", "STARTED", "n1"]] } ∧
    getCmdRun sampleFetch asciiToLower defaultFlags "indices" =
      Except.error "Failed to retrieve indices: connection refused" ∧
    getCmdRun sampleFetch asciiToLower defaultFlags "aliases" =
      Except.ok { header := ["ALIAS", "INDEX"], body := [["b", "i1"], ["a", "i2"]] } ∧
    getCmdRun sampleFetch asciiToLower defaultFlags "cluster" =
      Except.error (unknownEntityError "cluster") ∧
    exitStatus (getCmdRun sampleFetch asciiToLower defaultFlags "cluster") = 1 :=
  ⟨(getCmdRun_dispatch sampleFetch asciiToLower defaultFlags "shards").2.2.2.1
     (Or.inr rfl),
   by decide, by decide, by decide,
   ((getCmdRun_dispatch sampleFetch asciiToLower defaultFlags "cluster").1.2.2.2.2.2.2.2.1
     (by decide)).1,
   ((getCmdRun_dispatch sampleFetch asciiToLower defaultFlags "cluster").1.2.2.2.2.2.2.2.1
     (by decide)).2⟩

/-! ## The rows and the sort keys of the five pipelines -/

theorem foldl_append_row {α : Type} (g : α → List String) :
    ∀ (l : List α) (acc : List (List String)),
      l.foldl (fun data x => data ++ [g x]) acc = acc ++ l.map g
  | [], acc => by simp
  | x :: l, acc => by
    simp [List.foldl_cons, foldl_append_row g l (acc ++ [g x])]

theorem nodeData_eq (nodes : List Node) : nodeData nodes = nodes.map nodeRow := by
  simp [nodeData, foldl_append_row]

theorem indexData_eq (indices : List Index) : indexData indices = indices.map indexRow := by
  simp [indexData, foldl_append_row]

theorem aliasData_eq (aliases : List (String × String)) :
    aliasData aliases = aliases.map (fun entry => aliasRow entry.1 entry.2) := by
  simp [aliasData, foldl_append_row]

theorem taskData_mem (row : List String) :
    ∀ (nodes : List TaskNode) (acc : List (List String)),
      row ∈ nodes.foldl
        (fun data node => node.Tasks.foldl (fun data task => data ++ [taskRow task]) data) acc →
      row ∈ acc ∨ ∃ node ∈ nodes, ∃ task ∈ node.Tasks, row = taskRow task
  | [], acc, h => Or.inl (by simpa using h)
  | node :: nodes, acc, h => by
    rw [List.foldl_cons, foldl_append_row] at h
    rcases taskData_mem row nodes _ h with h1 | ⟨n, hn, t, ht, hrow⟩
    · rcases List.mem_append.mp h1 with h2 | h2
      · exact Or.inl h2
      · obtain ⟨t, ht, hrow⟩ := List.mem_map.mp h2
        exact Or.inr ⟨node, List.mem_cons_self node nodes, t, ht, hrow.symm⟩
    · exact Or.inr ⟨n, List.mem_cons_of_mem node hn, t, ht, hrow⟩

theorem shardLoop_mem (f : Flags) (row : List String) :
    ∀ (shards : List Shard) (acc data : List (List String)),
      shardLoop f acc shards = Except.ok data → row ∈ data →
      row ∈ acc ∨ ∃ s ∈ shards, row = shardRow s
  | [], acc, data, h, hrow => by
    simp [shardLoop] at h
    subst h
    exact Or.inl hrow
  | s :: shards, acc, data, h, hrow => by
    unfold shardLoop at h
    cases hstep : shardStep f acc s with
    | error e => simp [hstep] at h
    | ok acc' =>
      simp only [hstep] at h
      have hacc : acc' = acc ++ [shardRow s] ∨ acc' = acc := by
        unfold shardStep at hstep
        cases hinc : shardIncluded f s with
        | error e => simp [hinc] at hstep
        | ok b =>
          cases b with
          | true =>
            simp [hinc] at hstep
            exact Or.inl hstep.symm
          | false =>
            simp [hinc] at hstep
            exact Or.inr hstep.symm
      rcases shardLoop_mem f row shards acc' data h hrow with h1 | ⟨t, ht, hrow'⟩
      · rcases hacc with hacc | hacc
        · rw [hacc] at h1
          rcases List.mem_append.mp h1 with h2 | h2
          · exact Or.inl h2
          · exact Or.inr ⟨s, List.mem_cons_self s shards, by simpa using h2⟩
        · rw [hacc] at h1
          exact Or.inl h1
      · exact Or.inr ⟨t, List.mem_cons_of_mem s ht, hrow'⟩

/-- C16: in each of the five pipelines every row of the slice handed to
PrintTable has as many cells as the schema of that pipeline has columns:
12 for nodes, 11 for indices, 12 for shards, 2 for aliases, 3 for tasks;
whatever was fetched. -/
theorem rows_fit_schema :
    (∀ nodes : List Node, ∀ row ∈ nodeData nodes, row.length = nodeColumnDefs.length) ∧
    nodeColumnDefs.length = 12 ∧
    (∀ indices : List Index, ∀ row ∈ indexData indices,
      row.length = indexColumnDefs.length) ∧
    indexColumnDefs.length = 11 ∧
    (∀ (f : Flags) (shards : List Shard) (data : List (List String)),
      shardRows f shards = Except.ok data →
      ∀ row ∈ data, row.length = shardColumnDefs.length) ∧
    shardColumnDefs.length = 12 ∧
    (∀ aliases : List (String × String), ∀ row ∈ aliasData aliases,
      row.length = aliasColumnDefs.length) ∧
    aliasColumnDefs.length = 2 ∧
    (∀ tasksResponse : TasksResponse, ∀ row ∈ taskData tasksResponse,
      row.length = taskColumnDefs.length) ∧
    taskColumnDefs.length = 3 := by
  refine ⟨?_, rfl, ?_, rfl, ?_, rfl, ?_, rfl, ?_, rfl⟩
  · intro nodes row hrow
    rw [nodeData_eq] at hrow
    obtain ⟨n, _, hn⟩ := List.mem_map.mp hrow
    rw [← hn]
    rfl
  · intro indices row hrow
    rw [indexData_eq] at hrow
    obtain ⟨n, _, hn⟩ := List.mem_map.mp hrow
    rw [← hn]
    rfl
  · intro f shards data hdata row hrow
    rcases shardLoop_mem f row shards [] data hdata hrow with h | ⟨s, _, hs⟩
    · simp at h
    · rw [hs]
      rfl
  · intro aliases row hrow
    rw [aliasData_eq] at hrow
    obtain ⟨n, _, hn⟩ := List.mem_map.mp hrow
    rw [← hn]
    rfl
  · intro tasksResponse row hrow
    rcases taskData_mem row tasksResponse.Nodes [] hrow with h | ⟨_, _, t, _, ht⟩
    · simp at h
    · rw [ht]
      rfl

/-- C11, on the code: the node, index, shard and task handlers hand PrintTable
the caller's keys when there are any and their default keys otherwise; the
alias handler has no default and hands PrintTable the caller's keys as they
are, so that without --sort-by two aliases fetched as b, a are printed as
b, a, while under the key ALIAS they are printed as a, b. -/
theorem handlers_sort_keys :
    (∀ (toLower : String → String) (f : Flags) (nodes : List Node),
      handleNodeLogic toLower f nodes =
        afterPrint (PrintTable toLower nodeColumnDefs (nodeData nodes)
          (if f.flagSortBy = [] then ["NAME"] else f.flagSortBy))) ∧
    (∀ (toLower : String → String) (f : Flags) (indices : List Index),
      handleIndexLogic toLower f indices =
        afterPrint (PrintTable toLower indexColumnDefs (indexData indices)
          (if f.flagSortBy = [] then ["INDEX"] else f.flagSortBy))) ∧
    (∀ (toLower : String → String) (f : Flags) (shards : List Shard)
        (data : List (List String)), shardRows f shards = Except.ok data →
      handleShardLogic toLower f shards =
        afterPrint (PrintTable toLower shardColumnDefs data
          (if f.flagSortBy = [] then ["INDEX", "SHARD", "PRI-REP"] else f.flagSortBy))) ∧
    (∀ (toLower : String → String) (f : Flags) (tasksResponse : TasksResponse),
      handleTaskLogic toLower f tasksResponse =
        afterPrint (PrintTable toLower taskColumnDefs (taskData tasksResponse)
          (if f.flagSortBy = [] then ["NODE", "ID"] else f.flagSortBy))) ∧
    (∀ (toLower : String → String) (f : Flags) (aliases : List (String × String)),
      handleAliasLogic toLower f aliases =
        afterPrint (PrintTable toLower aliasColumnDefs (aliasData aliases) f.flagSortBy)) ∧
    handleAliasLogic asciiToLower defaultFlags [("b", "i1"), ("a", "i2")] =
      Except.ok { header := ["ALIAS", "INDEX"], body := [["b", "i1"], ["a", "i2"]] } ∧
    handleAliasLogic asciiToLower { defaultFlags with flagSortBy := ["ALIAS"] }
        [("b", "i1"), ("a", "i2")] =
      Except.ok { header := ["ALIAS", "INDEX"], body := [["a", "i2"], ["b", "i1"]] } := by
  refine ⟨?_, ?_, ?_, ?_, ?_, by decide, by decide⟩
  · intro toLower f nodes
    cases hk : f.flagSortBy <;> simp [handleNodeLogic, afterPrint, hk]
  · intro toLower f indices
    cases hk : f.flagSortBy <;> simp [handleIndexLogic, afterPrint, hk]
  · intro toLower f shards data hdata
    cases hk : f.flagSortBy <;> simp [handleShardLogic, afterPrint, hk, hdata]
  · intro toLower f tasksResponse
    cases hk : f.flagSortBy <;> simp [handleTaskLogic, afterPrint, hk]
  · intro toLower f aliases
    simp [handleAliasLogic, afterPrint]

/-! ## The schema as PrintTable reads it -/

theorem headerIndexMap_fold_congr (toLower : String → String) :
    ∀ (cols cols' : List ColumnDef) (n : Nat) (m : String → Option Nat),
      cols.map ColumnDef.Header = cols'.map ColumnDef.Header →
      (cols.enumFrom n).foldl
          (fun m p => fun key => if key = toLower p.2.Header then some p.1 else m key) m =
        (cols'.enumFrom n).foldl
          (fun m p => fun key => if key = toLower p.2.Header then some p.1 else m key) m
  | [], [], _, _, _ => rfl
  | [], _ :: _, _, _, h => by simp at h
  | _ :: _, [], _, _, h => by simp at h
  | c :: cols, c' :: cols', n, m, h => by
    simp only [List.map_cons, List.cons.injEq] at h
    simp only [List.enumFrom_cons, List.foldl_cons, h.1]
    exact headerIndexMap_fold_congr toLower cols cols' (n + 1) _ h.2

theorem headerIndexMap_congr (toLower : String → String) (cols cols' : List ColumnDef)
    (h : cols.map ColumnDef.Header = cols'.map ColumnDef.Header) :
    headerIndexMap toLower cols = headerIndexMap toLower cols' := by
  unfold headerIndexMap List.enum
  exact headerIndexMap_fold_congr toLower cols cols' 0 _ h

/-- C17: two schemas with the same headers in the same order, whatever their
Type tags, give the same result of PrintTable on every row list and key list:
the same panic or the same header line and body lines, hence the same
text. -/
theorem PrintTable_ignores_types (toLower : String → String) (cols cols' : List ColumnDef)
    (data : List (List String)) (sortByHeaders : List String)
    (h : cols.map ColumnDef.Header = cols'.map ColumnDef.Header) :
    PrintTable toLower cols data sortByHeaders = PrintTable toLower cols' data sortByHeaders ∧
    (PrintTable toLower cols data sortByHeaders).map Rendered.text =
      (PrintTable toLower cols' data sortByHeaders).map Rendered.text ∧
    sortData toLower cols data sortByHeaders = sortData toLower cols' data sortByHeaders := by
  have hlen : cols.length = cols'.length := by
    have := congrArg List.length h
    simpa using this
  have hsort : sortData toLower cols data sortByHeaders =
      sortData toLower cols' data sortByHeaders := by
    unfold sortData
    rw [headerIndexMap_congr toLower cols cols' h]
  have hprint : PrintTable toLower cols data sortByHeaders =
      PrintTable toLower cols' data sortByHeaders := by
    unfold PrintTable emptyColumns
    rw [hsort, hlen, h]
  exact ⟨hprint, by rw [hprint], hsort⟩

/-- Witness of C17: the schema NAME, COUNT under two typings. -/
theorem PrintTable_ignores_types_witness :
    PrintTable asciiToLower nameCountColumns [["b", "2"], ["a", "10"]] ["count"] =
      PrintTable asciiToLower nameCountColumnsRetyped [["b", "2"], ["a", "10"]] ["count"] ∧
    PrintTable asciiToLower nameCountColumns [["b", "2"], ["a", "10"]] ["count"] =
      some { header := ["NAME", "COUNT"], body := [["a", "10"], ["b", "2"]] } :=
  ⟨(PrintTable_ignores_types asciiToLower nameCountColumns nameCountColumnsRetyped
      [["b", "2"], ["a", "10"]] ["count"] (by decide)).1,
   by decide⟩

/-! ## How a sort key resolves to a column -/

theorem headerIndexMap_fold_some (toLower : String → String) (key : String) (i : Nat) :
    ∀ (cols : List ColumnDef) (n : Nat) (m : String → Option Nat),
      (cols.enumFrom n).foldl
          (fun m p => fun key => if key = toLower p.2.Header then some p.1 else m key) m key =
          some i ↔
        ((∃ j c, cols[j]? = some c ∧ i = n + j ∧ toLower c.Header = key ∧
            ∀ j' c', j < j' → cols[j']? = some c' → toLower c'.Header ≠ key) ∨
          ((∀ c ∈ cols, toLower c.Header ≠ key) ∧ m key = some i))
  | [], n, m => by simp
  | c :: cols, n, m => by
    rw [List.enumFrom_cons, List.foldl_cons, headerIndexMap_fold_some toLower key i cols (n + 1)]
    constructor
    · rintro (⟨j, d, hj, hi, hd, hlast⟩ | ⟨hno, hm⟩)
      · refine Or.inl ⟨j + 1, d, by simpa using hj, by omega, hd, ?_⟩
        intro j' c' hlt hj'
        cases j' with
        | zero => omega
        | succ j'' => exact hlast j'' c' (by omega) (by simpa using hj')
      · by_cases hk : key = toLower c.Header
        · simp only [hk, if_true, Option.some.injEq] at hm
          refine Or.inl ⟨0, c, List.getElem?_cons_zero, by omega, hk.symm, ?_⟩
          intro j' c' hlt hj'
          cases j' with
          | zero => omega
          | succ j'' =>
            exact hno c' (List.getElem?_mem (by simpa using hj'))
        · simp only [hk, if_false] at hm
          refine Or.inr ⟨?_, hm⟩
          intro c' hc'
          rcases List.mem_cons.mp hc' with h1 | h1
          · rw [h1]
            exact Ne.symm hk
          · exact hno c' h1
    · rintro (⟨j, d, hj, hi, hd, hlast⟩ | ⟨hno, hm⟩)
      · cases j with
        | zero =>
          simp only [List.getElem?_cons_zero, Option.some.injEq] at hj
          subst hj
          refine Or.inr ⟨?_, ?_⟩
          · intro c' hc'
            obtain ⟨j', hj'⟩ := List.mem_iff_getElem?.mp hc'
            exact hlast (j' + 1) c' (by omega) (by simpa using hj')
          · simp [hd, hi]
        | succ j0 =>
          refine Or.inl ⟨j0, d, by simpa using hj, by omega, hd, ?_⟩
          intro j' c' hlt hj'
          exact hlast (j' + 1) c' (by omega) (by simpa using hj')
      · have hc := hno c (List.mem_cons_self c cols)
        refine Or.inr ⟨fun c' hc' => hno c' (List.mem_cons_of_mem c hc'), ?_⟩
        simp [Ne.symm hc, hm]

/-- A key resolves to the last column whose lower-cased header is the key. -/
theorem headerIndexMap_some_iff (toLower : String → String) (cols : List ColumnDef)
    (key : String) (i : Nat) :
    headerIndexMap toLower cols key = some i ↔
      ∃ c, cols[i]? = some c ∧ toLower c.Header = key ∧
        ∀ j c', i < j → cols[j]? = some c' → toLower c'.Header ≠ key := by
  unfold headerIndexMap List.enum
  rw [headerIndexMap_fold_some toLower key i cols 0 (fun _ => none)]
  constructor
  · rintro (⟨j, c, hj, hi, hc, hlast⟩ | ⟨_, hm⟩)
    · have hij : i = j := by omega
      subst hij
      exact ⟨c, hj, hc, hlast⟩
    · cases hm
  · rintro ⟨c, hi, hc, hlast⟩
    exact Or.inl ⟨i, c, hi, by omega, hc, hlast⟩

theorem effectiveKeys_map_toLower (toLower : String → String) (cols : List ColumnDef)
    (keys keys' : List String) (h : keys.map toLower = keys'.map toLower) :
    effectiveKeys toLower cols keys = effectiveKeys toLower cols keys' := by
  have hmap : ∀ ks : List String, effectiveKeys toLower cols ks =
      (ks.map toLower).filterMap (headerIndexMap toLower cols) := by
    intro ks
    unfold effectiveKeys
    rw [List.filterMap_map]
    rfl
  rw [hmap keys, hmap keys', h]

/-- The five schemas of cmd/get.go have headers that are pairwise different
after lower-casing. -/
theorem program_schemas_nodup :
    (nodeColumnDefs.map (fun c => asciiToLower c.Header)).Nodup ∧
    (indexColumnDefs.map (fun c => asciiToLower c.Header)).Nodup ∧
    (shardColumnDefs.map (fun c => asciiToLower c.Header)).Nodup ∧
    (aliasColumnDefs.map (fun c => asciiToLower c.Header)).Nodup ∧
    (taskColumnDefs.map (fun c => asciiToLower c.Header)).Nodup := by
  decide

/-- C18: in a schema, whose headers are pairwise different after lower-casing
(the spec's "unique within a schema, case-insensitive"), a sort key resolves
to column index i exactly when the lower-case form of the key is the
lower-case form of the header at index i; and two key lists with the same
lower-case forms give the same result of PrintTable, on every row list. -/
theorem headerIndexMap_resolves (toLower : String → String) (cols : List ColumnDef)
    (hnodup : (cols.map (fun c => toLower c.Header)).Nodup) (key : String) (i : Nat) :
    (headerIndexMap toLower cols (toLower key) = some i ↔
      ∃ c, cols[i]? = some c ∧ toLower c.Header = toLower key) ∧
    (∀ (data : List (List String)) (keys keys' : List String),
      keys.map toLower = keys'.map toLower →
      PrintTable toLower cols data keys = PrintTable toLower cols data keys') := by
  refine ⟨?_, fun data keys keys' hkeys => ?_⟩
  · rw [headerIndexMap_some_iff]
    constructor
    · rintro ⟨c, hi, hc, _⟩
      exact ⟨c, hi, hc⟩
    · rintro ⟨c, hi, hc⟩
      refine ⟨c, hi, hc, ?_⟩
      intro j c' hlt hj heq
      have hjlt : j < (cols.map (fun c => toLower c.Header)).length := by
        rw [List.length_map]
        by_contra hge
        rw [List.getElem?_eq_none (by omega)] at hj
        cases hj
      refine List.nodup_iff_getElem?_ne_getElem?.mp hnodup i j hlt hjlt ?_
      rw [List.getElem?_map, List.getElem?_map, hi, hj]
      simp [hc, heq]
  · have hsort : sortData toLower cols data keys = sortData toLower cols data keys' := by
      rw [sortData_eq, sortData_eq, effectiveKeys_map_toLower toLower cols keys keys' hkeys]
    unfold PrintTable
    rw [hsort]

/-- Witness of C18: the keys "shard" and "ShArD" under the schema of the shard
pipeline. -/
theorem headerIndexMap_resolves_witness :
    (shardColumnDefs.map (fun c => asciiToLower c.Header)).Nodup ∧
    headerIndexMap asciiToLower shardColumnDefs (asciiToLower "ShArD") = some 1 ∧
    (headerIndexMap asciiToLower shardColumnDefs (asciiToLower "ShArD") = some 1 ↔
      ∃ c, shardColumnDefs[1]? = some c ∧ asciiToLower c.Header = asciiToLower "ShArD") ∧
    PrintTable asciiToLower shardColumnDefs
        [shardRow (mkShard "1" "r" "STARTED" "n1"), shardRow (mkShard "0" "p" "STARTED" "n1")]
        ["shard"] =
      PrintTable asciiToLower shardColumnDefs
        [shardRow (mkShard "1" "r" "STARTED" "n1"), shardRow (mkShard "0" "p" "STARTED" "n1")]
        ["ShArD"] :=
  ⟨by decide, by decide,
   (headerIndexMap_resolves asciiToLower shardColumnDefs (by decide) "ShArD" 1).1,
   (headerIndexMap_resolves asciiToLower shardColumnDefs (by decide) "ShArD" 1).2
     [shardRow (mkShard "1" "r" "STARTED" "n1"), shardRow (mkShard "0" "p" "STARTED" "n1")]
     ["shard"] ["ShArD"] (by decide)⟩

/-! ## Rendering twice -/

theorem stringLess_asymm {x y : String} (h : stringLess x y = true) :
    stringLess y x = false := by
  have hlt := (stringLess_iff x y).mp h
  cases hyx : stringLess y x with
  | false => rfl
  | true => exact absurd ((stringLess_iff y x).mp hyx) (lt_asymm hlt)

theorem lessOn_asymm (a b : List String) :
    ∀ columns : List Nat, lessOn columns a b = some true → lessOn columns b a = some false
  | [], h => by simp [lessOn] at h
  | c :: columns, h => by
    unfold lessOn at h ⊢
    cases ha : a[c]? with
    | none => simp [ha] at h
    | some x =>
      cases hb : b[c]? with
      | none => simp [ha, hb] at h
      | some y =>
        simp only [ha, hb] at h ⊢
        by_cases hxy : x = y
        · simp [hxy] at h ⊢
          exact lessOn_asymm a b columns h
        · have hyx : ¬ y = x := fun e => hxy e.symm
          simp [hxy] at h
          simp [hyx, stringLess_asymm h]

/-- A slice whose neighbours are never strictly out of order is left as it is
by the insertion sort. -/
theorem insertionLoop_of_chain {α : Type} (lt : α → α → Option Bool) :
    ∀ (rest acc : List α),
      List.Chain' (fun a b => lt b a = some false) (acc.reverse ++ rest) →
      insertionLoop lt acc rest = some (acc.reverse ++ rest)
  | [], acc, _ => by simp [insertionLoop]
  | x :: rest, acc, h => by
    have hins : insertLeft lt x acc = some (x :: acc) := by
      cases acc with
      | nil => rfl
      | cons y ys =>
        have h1 : List.Chain' (fun a b => lt b a = some false) (y :: x :: rest) := by
          have h2 : List.Chain' (fun a b => lt b a = some false)
              (ys.reverse ++ y :: x :: rest) := by
            simpa using h
          exact (List.chain'_split.mp h2).2
        have hxy : lt x y = some false := (List.chain'_cons.mp h1).1
        simp [insertLeft, hxy]
    have ih := insertionLoop_of_chain lt rest (x :: acc) (by simpa using h)
    unfold insertionLoop
    simpa [hins] using ih

/-- The sort step leaves its own result as it is. -/
theorem sortData_idem (toLower : String → String) (columnDefs : List ColumnDef)
    (data sorted : List (List String)) (sortByHeaders : List String)
    (h : sortData toLower columnDefs data sortByHeaders = some sorted) :
    sortData toLower columnDefs sorted sortByHeaders = some sorted := by
  rw [sortData_eq] at h ⊢
  by_cases heff : effectiveKeys toLower columnDefs sortByHeaders = []
  · rw [if_pos heff]
  · rw [if_neg heff] at h ⊢
    have hchain := insertionLoop_chain _
      (fun a b => lessOn (effectiveKeys toLower columnDefs sortByHeaders) b a = some false)
      (fun a b hab => lessOn_asymm a b _ hab) (fun a b hab => hab) data [] sorted h
      List.chain'_nil
    simpa using insertionLoop_of_chain _ sorted [] (by simpa using hchain)

theorem hasData_perm (data data' : List (List String)) (h : data.Perm data') (i : Nat) :
    hasData data i = hasData data' i := by
  unfold hasData
  rw [Bool.eq_iff_iff, List.any_eq_true, List.any_eq_true]
  constructor
  · rintro ⟨row, hrow, hcell⟩
    exact ⟨row, h.mem_iff.mp hrow, hcell⟩
  · rintro ⟨row, hrow, hcell⟩
    exact ⟨row, h.mem_iff.mpr hrow, hcell⟩

theorem keptColumns_perm (columnDefs : List ColumnDef) (data data' : List (List String))
    (h : data.Perm data') : keptColumns columnDefs data = keptColumns columnDefs data' := by
  unfold keptColumns
  apply List.filter_congr
  intro i _
  exact hasData_perm data data' h i

/-- C19: on a table, every row of which has as many cells as the schema has
columns (the spec's Table invariant, which every row list built by cmd/get.go
meets), PrintTable ends normally and leaves the row list sorted; the sort step
leaves that sorted list as it is, and a second call of PrintTable on it, with
the same schema and keys, gives the same header line and body lines, hence the
same text. -/
theorem PrintTable_repeatable (toLower : String → String) (columnDefs : List ColumnDef)
    (data : List (List String)) (sortByHeaders : List String)
    (hwf : ∀ row ∈ data, row.length = columnDefs.length) :
    ∃ sorted out, sortData toLower columnDefs data sortByHeaders = some sorted ∧
      PrintTable toLower columnDefs data sortByHeaders = some out ∧
      sortData toLower columnDefs sorted sortByHeaders = some sorted ∧
      PrintTable toLower columnDefs sorted sortByHeaders = some out ∧
      (PrintTable toLower columnDefs sorted sortByHeaders).map Rendered.text =
        (PrintTable toLower columnDefs data sortByHeaders).map Rendered.text := by
  obtain ⟨sorted, hsorted, hout⟩ := PrintTable_of_wf toLower columnDefs data sortByHeaders hwf
  have hperm := (sortData_spec toLower columnDefs data sorted sortByHeaders hsorted).1
  have hwf' : ∀ row ∈ sorted, row.length = columnDefs.length :=
    fun row hrow => hwf row (hperm.mem_iff.mp hrow)
  have hidem := sortData_idem toLower columnDefs data sorted sortByHeaders hsorted
  obtain ⟨sorted', hsorted', hout'⟩ :=
    PrintTable_of_wf toLower columnDefs sorted sortByHeaders hwf'
  rw [hidem] at hsorted'
  injection hsorted' with hsorted'
  subst hsorted'
  rw [keptColumns_perm columnDefs sorted data hperm] at hout'
  exact ⟨sorted, _, hsorted, hout, hidem, hout', by rw [hout, hout']⟩

/-- Witness of C19: the rows b/2, a/1 under the key "name". -/
theorem PrintTable_repeatable_witness :
    PrintTable asciiToLower nameCountColumns [["a", "1"], ["b", "2"]] ["name"] =
      PrintTable asciiToLower nameCountColumns [["b", "2"], ["a", "1"]] ["name"] ∧
    ∃ sorted out,
      sortData asciiToLower nameCountColumns [["b", "2"], ["a", "1"]] ["name"] = some sorted ∧
      PrintTable asciiToLower nameCountColumns [["b", "2"], ["a", "1"]] ["name"] = some out ∧
      sortData asciiToLower nameCountColumns sorted ["name"] = some sorted ∧
      PrintTable asciiToLower nameCountColumns sorted ["name"] = some out ∧
      (PrintTable asciiToLower nameCountColumns sorted ["name"]).map Rendered.text =
        (PrintTable asciiToLower nameCountColumns [["b", "2"], ["a", "1"]] ["name"]).map
          Rendered.text :=
  ⟨by decide,
   PrintTable_repeatable asciiToLower nameCountColumns [["b", "2"], ["a", "1"]] ["name"]
     (by decide)⟩

/-! ## Index accesses -/

theorem emptyColumnsFrom_length (data : List (List String)) :
    ∀ (indices : List Nat) (empty : List Bool),
      emptyColumnsFrom data indices = some empty → empty.length = indices.length
  | [], empty, h => by
    simp [emptyColumnsFrom] at h
    subst h
    rfl
  | i :: indices, empty, h => by
    unfold emptyColumnsFrom at h
    cases hi : columnEmpty i data with
    | none => simp [hi] at h
    | some e =>
      cases hrest : emptyColumnsFrom data indices with
      | none => simp [hi, hrest] at h
      | some rest =>
        simp [hi, hrest] at h
        subst h
        simp [emptyColumnsFrom_length data indices rest hrest]

theorem emptyColumnsFrom_none (data : List (List String)) (i : Nat)
    (hi : columnEmpty i data = none) :
    ∀ indices : List Nat, i ∈ indices → emptyColumnsFrom data indices = none
  | [], h => by simp at h
  | j :: indices, h => by
    unfold emptyColumnsFrom
    rcases List.mem_cons.mp h with h1 | h1
    · rw [← h1, hi]
    · cases hj : columnEmpty j data with
      | none => rfl
      | some e => simp [emptyColumnsFrom_none data i hi indices h1]

theorem emitCells_some_le :
    ∀ (empty : List Bool) (row out : List String),
      emitCells empty row = some out → row.length ≤ empty.length
  | _, [], _, _ => by simp
  | [], _ :: _, _, h => by simp [emitCells] at h
  | e :: es, c :: cs, out, h => by
    unfold emitCells at h
    cases hrec : emitCells es cs with
    | none => simp [hrec] at h
    | some out' =>
      have := emitCells_some_le es cs out' hrec
      simp
      omega

theorem emitRows_some_le (empty : List Bool) :
    ∀ (rows body : List (List String)), emitRows empty rows = some body →
      ∀ row ∈ rows, row.length ≤ empty.length
  | [], _, _, row, hrow => by simp at hrow
  | r :: rows, body, h, row, hrow => by
    unfold emitRows at h
    cases hr : emitCells empty r with
    | none => simp [hr] at h
    | some line =>
      cases hrest : emitRows empty rows with
      | none => simp [hr, hrest] at h
      | some lines =>
        rcases List.mem_cons.mp hrow with h1 | h1
        · rw [h1]
          exact emitCells_some_le empty r line hr
        · exact emitRows_some_le empty rows lines hrest row h1

/-- C20 as stated fails: under the schema NAME, COUNT and no sort key, the
rows a/b and c (one cell) are printed without any access out of range,
although the second row is shorter than the schema. -/
theorem PrintTable_bounds_counterexample :
    ¬ (∀ (columnDefs : List ColumnDef) (data : List (List String))
        (sortByHeaders : List String),
        (∃ row ∈ data, row.length ≠ columnDefs.length) →
        PrintTable asciiToLower columnDefs data sortByHeaders = none) := by
  intro h
  have h1 := h nameCountColumns [["a", "b"], ["c"]] []
    ⟨["c"], by simp, by decide⟩
  revert h1
  decide

/-- C20, amended: when every row has as many cells as the schema has columns,
PrintTable ends without a panic, whatever the sort keys; when some row has
more cells than the schema has columns, PrintTable panics; and so it does when
the first row has fewer cells than the schema has columns. -/
theorem PrintTable_bounds (toLower : String → String) (columnDefs : List ColumnDef)
    (data : List (List String)) (sortByHeaders : List String) :
    ((∀ row ∈ data, row.length = columnDefs.length) →
      (PrintTable toLower columnDefs data sortByHeaders).isSome = true) ∧
    ((∃ row ∈ data, columnDefs.length < row.length) →
      PrintTable toLower columnDefs data sortByHeaders = none) ∧
    (∀ (row : List String) (rest : List (List String)), data = row :: rest →
      row.length < columnDefs.length →
      PrintTable toLower columnDefs data sortByHeaders = none) := by
  refine ⟨fun hwf => ?_, ?_, ?_⟩
  · obtain ⟨sorted, _, hout⟩ := PrintTable_of_wf toLower columnDefs data sortByHeaders hwf
    rw [hout]
    rfl
  · rintro ⟨row, hrow, hlong⟩
    cases hprint : PrintTable toLower columnDefs data sortByHeaders with
    | none => rfl
    | some out =>
      obtain ⟨empty, sorted, hempty, hsorted, _, hbody⟩ :=
        PrintTable_some toLower columnDefs data sortByHeaders out hprint
      have hlen : empty.length = columnDefs.length := by
        have := emptyColumnsFrom_length data _ empty hempty
        simpa using this
      have hperm := (sortData_spec toLower columnDefs data sorted sortByHeaders hsorted).1
      have hle := emitRows_some_le empty sorted out.body hbody row (hperm.mem_iff.mpr hrow)
      omega
  · intro row rest hdata hshort
    have hcol : columnEmpty row.length data = none := by
      rw [hdata]
      unfold columnEmpty
      rw [List.getElem?_eq_none (Nat.le_refl _)]
    have hempty : emptyColumns columnDefs data = none :=
      emptyColumnsFrom_none data row.length hcol _ (List.mem_range.mpr hshort)
    unfold PrintTable
    rw [hempty]

/-- Witness of C20, amended: rows that fit, a row that is too long, and a
first row that is too short. -/
theorem PrintTable_bounds_witness :
    (PrintTable asciiToLower nameCountColumns [["b", "2"], ["a", "1"]] ["count"]).isSome = true ∧
    PrintTable asciiToLower nameCountColumns [["b", "2"], ["a", "1", "z"]] [] = none ∧
    PrintTable asciiToLower nameCountColumns [["c"], ["a", "b"]] [] = none :=
  ⟨(PrintTable_bounds asciiToLower nameCountColumns [["b", "2"], ["a", "1"]] ["count"]).1
     (by decide),
   (PrintTable_bounds asciiToLower nameCountColumns [["b", "2"], ["a", "1", "z"]] []).2.1
     ⟨["a", "1", "z"], by simp, by decide⟩,
   (PrintTable_bounds asciiToLower nameCountColumns [["c"], ["a", "b"]] []).2.2
     ["c"] [["a", "b"]] rfl (by decide)⟩

/-! ## Elision before or after the sort -/

theorem columnEmpty_true (i : Nat) :
    ∀ data : List (List String), columnEmpty i data = some true →
      ∀ row ∈ data, row[i]? = some ""
  | [], _, row, hrow => by simp at hrow
  | r :: rest, h, row, hrow => by
    unfold columnEmpty at h
    cases hr : r[i]? with
    | none => simp [hr] at h
    | some cell =>
      simp only [hr] at h
      by_cases hcell : cell = ""
      · simp [hcell] at h
        rcases List.mem_cons.mp hrow with h1 | h1
        · rw [h1, hr, hcell]
        · exact columnEmpty_true i rest h row h1
      · simp [hcell] at h

theorem columnEmpty_false (i : Nat) :
    ∀ data : List (List String), columnEmpty i data = some false →
      ∃ row ∈ data, ∃ cell, row[i]? = some cell ∧ cell ≠ ""
  | [], h => by simp [columnEmpty] at h
  | r :: rest, h => by
    unfold columnEmpty at h
    cases hr : r[i]? with
    | none => simp [hr] at h
    | some cell =>
      simp only [hr] at h
      by_cases hcell : cell = ""
      · simp [hcell] at h
        obtain ⟨row, hrow, c, hc, hne⟩ := columnEmpty_false i rest h
        exact ⟨row, List.mem_cons_of_mem r hrow, c, hc, hne⟩
      · exact ⟨r, List.mem_cons_self r rest, cell, hr, hcell⟩

/-- Two scans of one column that both end normally, over the same rows in two
orders, give the same answer. -/
theorem columnEmpty_perm (i : Nat) (data data' : List (List String)) (h : data.Perm data')
    (b b' : Bool) (hb : columnEmpty i data = some b) (hb' : columnEmpty i data' = some b') :
    b = b' := by
  cases b <;> cases b'
  · rfl
  · obtain ⟨row, hrow, cell, hcell, hne⟩ := columnEmpty_false i data hb
    have hall := columnEmpty_true i data' hb' row (h.mem_iff.mp hrow)
    rw [hcell] at hall
    exact absurd (Option.some.inj hall) hne
  · obtain ⟨row, hrow, cell, hcell, hne⟩ := columnEmpty_false i data' hb'
    have hall := columnEmpty_true i data hb row (h.mem_iff.mpr hrow)
    rw [hcell] at hall
    exact absurd (Option.some.inj hall) hne
  · rfl

theorem emptyColumnsFrom_perm (data data' : List (List String)) (h : data.Perm data') :
    ∀ (indices : List Nat) (empty empty' : List Bool),
      emptyColumnsFrom data indices = some empty →
      emptyColumnsFrom data' indices = some empty' → empty = empty'
  | [], empty, empty', he, he' => by
    simp [emptyColumnsFrom] at he he'
    rw [he, he']
  | i :: indices, empty, empty', he, he' => by
    unfold emptyColumnsFrom at he he'
    cases hi : columnEmpty i data with
    | none => simp [hi] at he
    | some b =>
      cases hi' : columnEmpty i data' with
      | none => simp [hi'] at he'
      | some b' =>
        cases hrest : emptyColumnsFrom data indices with
        | none => simp [hi, hrest] at he
        | some rest =>
          cases hrest' : emptyColumnsFrom data' indices with
          | none => simp [hi', hrest'] at he'
          | some rest' =>
            simp [hi, hrest] at he
            simp [hi', hrest'] at he'
            rw [← he, ← he', columnEmpty_perm i data data' h b b' hi hi',
              emptyColumnsFrom_perm data data' h indices rest rest' hrest hrest']

theorem PrintTableSortFirst_some (toLower : String → String) (columnDefs : List ColumnDef)
    (data : List (List String)) (sortByHeaders : List String) (out : Rendered)
    (h : PrintTableSortFirst toLower columnDefs data sortByHeaders = some out) :
    ∃ sorted empty, sortData toLower columnDefs data sortByHeaders = some sorted ∧
      emptyColumns columnDefs sorted = some empty ∧
      emitCells empty (columnDefs.map ColumnDef.Header) = some out.header ∧
      emitRows empty sorted = some out.body := by
  unfold PrintTableSortFirst at h
  cases hsorted : sortData toLower columnDefs data sortByHeaders with
  | none => simp [hsorted] at h
  | some sorted =>
    cases hempty : emptyColumns columnDefs sorted with
    | none => simp [hsorted, hempty] at h
    | some empty =>
      cases hheader : emitCells empty (columnDefs.map ColumnDef.Header) with
      | none => simp [hsorted, hempty, hheader] at h
      | some header =>
        cases hbody : emitRows empty sorted with
        | none => simp [hsorted, hempty, hheader, hbody] at h
        | some body =>
          simp [hsorted, hempty, hheader, hbody] at h
          subst h
          exact ⟨sorted, empty, rfl, hempty, hheader, hbody⟩

theorem PrintTableSortFirst_of_wf (toLower : String → String) (columnDefs : List ColumnDef)
    (data sorted : List (List String)) (sortByHeaders : List String)
    (hwf : ∀ row ∈ data, row.length = columnDefs.length)
    (hsorted : sortData toLower columnDefs data sortByHeaders = some sorted) :
    PrintTableSortFirst toLower columnDefs data sortByHeaders =
      some { header := cellsAt (keptColumns columnDefs sorted) (columnDefs.map ColumnDef.Header),
             body := sorted.map (cellsAt (keptColumns columnDefs sorted)) } := by
  have hperm := (sortData_spec toLower columnDefs data sorted sortByHeaders hsorted).1
  have hwf' : ∀ row ∈ sorted, row.length = columnDefs.length :=
    fun row hrow => hwf row (hperm.mem_iff.mp hrow)
  unfold PrintTableSortFirst
  simp only [hsorted, emptyColumns_of_wf columnDefs sorted hwf',
    emitCells_of_wf columnDefs sorted (columnDefs.map ColumnDef.Header) (by simp),
    emitRows_of_wf columnDefs sorted sorted hwf']

/-- C21: on a table, every row of which has as many cells as the schema has
columns (the spec's Table invariant, which every row list built by cmd/get.go
meets), the empty columns that PrintTable finds on the rows before the sort
are the ones found on the sorted rows, PrintTable ends normally with the
output of the renderer that sorts first and detects empty columns afterwards,
and its body lines are the sorted rows, in their sorted order, cut down to the
kept columns. On any rows, if both renderers end normally their outputs are
equal. -/
theorem PrintTable_eq_sortFirst (toLower : String → String) (columnDefs : List ColumnDef)
    (data : List (List String)) (sortByHeaders : List String) :
    ((∀ row ∈ data, row.length = columnDefs.length) →
      ∃ sorted empty out, sortData toLower columnDefs data sortByHeaders = some sorted ∧
        emptyColumns columnDefs data = some empty ∧
        emptyColumns columnDefs sorted = some empty ∧
        keptColumns columnDefs sorted = keptColumns columnDefs data ∧
        PrintTable toLower columnDefs data sortByHeaders = some out ∧
        PrintTableSortFirst toLower columnDefs data sortByHeaders = some out ∧
        out.body = sorted.map (cellsAt (keptColumns columnDefs data))) ∧
    (∀ out out', PrintTable toLower columnDefs data sortByHeaders = some out →
      PrintTableSortFirst toLower columnDefs data sortByHeaders = some out' → out = out') := by
  refine ⟨fun hwf => ?_, fun out out' hout hout' => ?_⟩
  · obtain ⟨sorted, hsorted, hprint⟩ :=
      PrintTable_of_wf toLower columnDefs data sortByHeaders hwf
    have hperm := (sortData_spec toLower columnDefs data sorted sortByHeaders hsorted).1
    have hwf' : ∀ row ∈ sorted, row.length = columnDefs.length :=
      fun row hrow => hwf row (hperm.mem_iff.mp hrow)
    have hkept := keptColumns_perm columnDefs sorted data hperm
    have hfirst := PrintTableSortFirst_of_wf toLower columnDefs data sorted sortByHeaders
      hwf hsorted
    rw [hkept] at hfirst
    have hempty := emptyColumns_of_wf columnDefs data hwf
    have hempty' := emptyColumns_of_wf columnDefs sorted hwf'
    have hsame : (List.range columnDefs.length).map (fun i => !hasData sorted i) =
        (List.range columnDefs.length).map (fun i => !hasData data i) := by
      apply List.map_congr_left
      intro i _
      rw [hasData_perm sorted data hperm i]
    rw [hsame] at hempty'
    exact ⟨sorted, _, _, hsorted, hempty, hempty', hkept, hprint, hfirst, rfl⟩
  · obtain ⟨empty, sorted, hempty, hsorted, hheader, hbody⟩ :=
      PrintTable_some toLower columnDefs data sortByHeaders out hout
    obtain ⟨sorted', empty', hsorted', hempty', hheader', hbody'⟩ :=
      PrintTableSortFirst_some toLower columnDefs data sortByHeaders out' hout'
    rw [hsorted] at hsorted'
    injection hsorted' with hsorted'
    subst hsorted'
    have hperm := (sortData_spec toLower columnDefs data sorted sortByHeaders hsorted).1
    have heq : empty = empty' :=
      emptyColumnsFrom_perm data sorted hperm.symm _ empty empty' hempty hempty'
    subst heq
    rw [hheader] at hheader'
    rw [hbody] at hbody'
    injection hheader' with hheader'
    injection hbody' with hbody'
    cases out
    cases out'
    simp only at hheader' hbody'
    rw [hheader', hbody']

/-- Witness of C21: rows without a password, sorted by name. -/
theorem PrintTable_eq_sortFirst_witness :
    PrintTableSortFirst asciiToLower passwordColumns [["b", "2", ""], ["a", "1", ""]] ["name"] =
      some { header := ["NAME", "COUNT"], body := [["a", "1"], ["b", "2"]] } ∧
    ∃ sorted empty out,
      sortData asciiToLower passwordColumns [["b", "2", ""], ["a", "1", ""]] ["name"] =
        some sorted ∧
      emptyColumns passwordColumns [["b", "2", ""], ["a", "1", ""]] = some empty ∧
      emptyColumns passwordColumns sorted = some empty ∧
      keptColumns passwordColumns sorted =
        keptColumns passwordColumns [["b", "2", ""], ["a", "1", ""]] ∧
      PrintTable asciiToLower passwordColumns [["b", "2", ""], ["a", "1", ""]] ["name"] =
        some out ∧
      PrintTableSortFirst asciiToLower passwordColumns [["b", "2", ""], ["a", "1", ""]]
        ["name"] = some out ∧
      out.body = sorted.map
        (cellsAt (keptColumns passwordColumns [["b", "2", ""], ["a", "1", ""]])) :=
  ⟨by decide,
   (PrintTable_eq_sortFirst asciiToLower passwordColumns [["b", "2", ""], ["a", "1", ""]]
     ["name"]).1 (by decide)⟩

end Esctl
